import Mathlib

/-!
Verification development for the MIN ("Microcontroller Interconnect Network")
protocol engine (`src/context.rs`, `src/transport.rs`, `src/crc.rs`).

Shallow embedding conventions:
* machine integers are `Nat` with explicit wrap-arounds (`% 256`, `% 2^16`,
  `% 2^32`, `% 2^128`) at the operations where the Rust code wraps; the two
  unannotated `u8` decrements on the receive path (`rx_frame_length -= 1`,
  `n_frames -= 1`) are modelled with release-mode (wrapping) semantics;
* the hardware interface is modelled by a configuration record: `tx_space()`
  is the constant `txSpace`, `tx_byte` appends to the `output` byte list,
  `tx_start`/`tx_finished` are no-ops;
* the millisecond clock (`SystemTime::now`) is passed in as the explicit
  parameter `now`;
* fixed-size byte arrays (`rx_frame_payload_buf`, `TransportFrame.payload`)
  are modelled as total functions `Nat → Nat`; the bounds of every actual
  access are established by theorems;
* fallible operations return `Except`.
-/

set_option maxRecDepth 10000

namespace MinRs

/-! ### Wrapping arithmetic -/

def wrap8add (a b : Nat) : Nat := (a + b) % 256
def wrap8sub (a b : Nat) : Nat := (a + 256 - b % 256) % 256
def wrap16sub (a b : Nat) : Nat := (a + 65536 - b % 65536) % 65536
def wrap32add (a b : Nat) : Nat := (a + b) % 4294967296
def wrap128sub (a b : Nat) : Nat := (a + 2 ^ 128 - b % 2 ^ 128) % 2 ^ 128

/-! ### CRC-32 engine (`src/crc.rs`) -/

def CRC_POLYNOMIAL_NORMAL : Nat := 0x04c11db7
def CRC_POLYNOMIAL_REVERSED : Nat := 0xedb88320

structure Crc32Context where
  crc : Nat
  reversed : Bool
  refin : Bool
  refout : Bool

/-- `u8::reverse_bits`. -/
def bitRev8 (b : Nat) : Nat :=
  (List.range 8).foldl (fun a i => a * 2 + b / 2 ^ i % 2) 0

/-- `u32::reverse_bits`. -/
def bitRev32 (b : Nat) : Nat :=
  (List.range 32).foldl (fun a i => a * 2 + b / 2 ^ i % 2) 0

def Crc32Context.new (crc : Nat) (reversed refin refout : Bool) : Crc32Context :=
  ⟨crc, reversed, refin, refout⟩

/-- One iteration of the inner loop of `step_normal` (u32 shifts truncate). -/
def crcShiftNormal (c : Nat) : Nat :=
  if c &&& 0x80000000 ≠ 0 then (c * 2 % 2 ^ 32) ^^^ CRC_POLYNOMIAL_NORMAL
  else c * 2 % 2 ^ 32

/-- One iteration of the inner loop of `step_reversed`. -/
def crcShiftReversed (c : Nat) : Nat :=
  if c &&& 1 = 1 then c / 2 ^^^ CRC_POLYNOMIAL_REVERSED else c / 2

def Crc32Context.step (self : Crc32Context) (byte : Nat) : Crc32Context :=
  if self.reversed then
    { self with crc := Nat.repeat crcShiftReversed 8 (self.crc ^^^ byte) }
  else
    { self with
      crc := Nat.repeat crcShiftNormal 8
        ((self.crc ^^^ (if self.refin then bitRev8 byte else byte) * 2 ^ 24) % 2 ^ 32) }

def Crc32Context.finalize (self : Crc32Context) : Nat :=
  (if self.refout then bitRev32 self.crc else self.crc) ^^^ 0xffffffff

def CRC_SEED : Nat := 0xffffffff
def CRC_REVERSED : Bool := true
def CRC_REFIN : Bool := false
def CRC_REFOUT : Bool := false

/-- The CRC context used for every frame in `context.rs`. -/
def crcFresh : Crc32Context := Crc32Context.new CRC_SEED CRC_REVERSED CRC_REFIN CRC_REFOUT

def crcFold (c : Crc32Context) (bytes : List Nat) : Crc32Context :=
  bytes.foldl Crc32Context.step c

/-! ### Protocol constants (`context.rs`, `transport.rs`) -/

def HEADER_BYTE : Nat := 0xaa
def STUFF_BYTE : Nat := 0x55
def EOF_BYTE : Nat := 0x55
def MAX_PAYLOAD : Nat := 255
def ACK : Nat := 0xff
def RESET : Nat := 0xfe
def TRANSPORT_FIFO_MAX_FRAMES : Nat := 31
def TRANSPORT_MAX_WINDOW_SIZE : Nat := 16
def TRANSPORT_IDLE_TIMEOUT_MS : Nat := 500
def TRANSPORT_ACK_RETRANSMIT_TIMEOUT_MS : Nat := 250
def TRANSPORT_FRAME_RETRANSMIT_TIMEOUT_MS : Nat := 1000

/-! ### Pure frame codec (`on_wire_bytes` and the byte-stuffer) -/

/-- The byte-stuffer `stuffed_tx_byte`, folded over a list of logical bytes:
`c` is `tx_header_byte_countdown`.  Each `0xAA` decrements the countdown and,
when it reaches 0, a `0x55` stuff byte is emitted and the countdown resets
to 2; every other byte resets the countdown to 2. -/
def stuffed : Nat → List Nat → List Nat
  | _, [] => []
  | c, b :: bs =>
    if b = HEADER_BYTE then
      if c = 1 then b :: STUFF_BYTE :: stuffed 2 bs
      else b :: stuffed (c - 1) bs
    else b :: stuffed 2 bs

/-- The countdown transition of `stuffed_tx_byte` for one logical byte. -/
def cdStep (c b : Nat) : Nat :=
  if b = HEADER_BYTE then (if c = 1 then 2 else c - 1) else 2

/-- Countdown value after a list of logical bytes. -/
def cdFold (c : Nat) (bs : List Nat) : Nat := bs.foldl cdStep c

/-- The payload bytes read by the `for` loop in `on_wire_bytes`:
`payload_base[offset]` with `offset += 1; offset &= payload_mask` after
each byte. -/
def wirePayload : Nat → Nat → Nat → List Nat → List Nat
  | _, _, 0, _ => []
  | offset, mask, k + 1, base =>
    base.getD offset 0 :: wirePayload ((offset + 1) &&& mask) mask k base

/-- The CRC-covered logical bytes of a frame:
`id_control`, the seq byte for transport frames, the length byte and the
payload. -/
def frameBody (id_control seq : Nat) (payload_base : List Nat)
    (payload_offset payload_mask payload_len : Nat) : List Nat :=
  id_control ::
    (if id_control &&& 0x80 = 0x80 then [seq] else []) ++
      payload_len :: wirePayload payload_offset payload_mask payload_len payload_base

/-- The four CRC bytes as transmitted (big-endian, each `as u8`). -/
def crcBytes (c : Nat) : List Nat :=
  [c / 2 ^ 24 % 256, c / 2 ^ 16 % 256, c / 2 ^ 8 % 256, c % 256]

/-- The full wire image produced by `on_wire_bytes`: three unstuffed header
bytes, the stuffed logical bytes (body then CRC), one unstuffed EOF byte. -/
def on_wire_bytes (id_control seq : Nat) (payload_base : List Nat)
    (payload_offset payload_mask payload_len : Nat) : List Nat :=
  let body := frameBody id_control seq payload_base payload_offset payload_mask payload_len
  let checksum := (crcFold crcFresh body).finalize
  HEADER_BYTE :: HEADER_BYTE :: HEADER_BYTE ::
    stuffed 2 (body ++ crcBytes checksum) ++ [EOF_BYTE]

/-! ### Data model (`transport.rs`, `context.rs`) -/

structure TransportFrame where
  last_sent_time_ms : Nat
  payload : Nat → Nat
  payload_len : Nat
  min_id : Nat
  seq : Nat

def TransportFrame.new (min_id : Nat) (payload : List Nat) (len : Nat) : TransportFrame :=
  { last_sent_time_ms := 0
    payload := fun i => if i < len then payload.getD i 0 else 0
    payload_len := len
    min_id := min_id
    seq := 0 }

structure Transport where
  frames : List TransportFrame
  last_sent_ack_time_ms : Nat
  last_received_anything_ms : Nat
  last_received_frame_ms : Nat
  spurious_acks : Nat
  sequence_mismatch_drop : Nat
  resets_received : Nat
  n_frames : Nat
  n_frames_max : Nat
  sn_min : Nat
  sn_max : Nat
  rn : Nat

def Transport.new (now : Nat) : Transport :=
  { frames := []
    last_sent_ack_time_ms := now
    last_received_anything_ms := now
    last_received_frame_ms := 0
    spurious_acks := 0
    sequence_mismatch_drop := 0
    resets_received := 0
    n_frames := 0
    n_frames_max := 0
    sn_min := 0
    sn_max := 0
    rn := 0 }

def Transport.reset_transport_fifo (t : Transport) (now : Nat) : Transport :=
  { t with
    frames := []
    n_frames := 0
    sn_max := 0
    sn_min := 0
    rn := 0
    last_received_anything_ms := now
    last_sent_ack_time_ms := now
    last_received_frame_ms := 0 }

/-- `Transport::pop`: `pop_front` (a no-op on an empty queue) plus the
`n_frames -= 1` decrement (release-mode wrapping). -/
def Transport.pop (t : Transport) : Transport :=
  { t with frames := t.frames.tail, n_frames := wrap8sub t.n_frames 1 }

inductive RxState where
  | SearchingForSof
  | ReceivingIdControl
  | ReceivingSeq
  | ReceivingLength
  | ReceivingPayload
  | ReceivingChecksum3
  | ReceivingChecksum2
  | ReceivingChecksum1
  | ReceivingChecksum0
  | ReceivingEof
  deriving DecidableEq

structure Msg where
  min_id : Nat
  len : Nat
  buf : List Nat
  port : Nat
  deriving DecidableEq

/-- `Msg::new` copies `payload[0..payload_len]` out of the receive buffer. -/
def Msg.new (min_id : Nat) (payload : Nat → Nat) (payload_len port : Nat) : Msg :=
  { min_id := min_id
    len := payload_len
    buf := (List.range payload_len).map payload
    port := port }

inductive Error where
  /-- No space in the tx buffer; the value is the computed overflow size. -/
  | NoEnoughTxSpace (n : Nat)
  | NoMsg
  deriving DecidableEq

/-- The immutable construction parameters of a `Context` plus the hardware
interface: `t_min`, `port` and the space reported by `hw_if.tx_space()`. -/
structure MinCfg where
  t_min : Bool
  port : Nat
  txSpace : Nat

/-- The mutable state of a `Context`.  `output` collects every byte passed
to `hw_if.tx_byte`. -/
structure MinCtx where
  transport : Transport
  tx_header_byte_countdown : Nat
  tx_checksum : Crc32Context
  rx_header_bytes_seen : Nat
  rx_frame_state : RxState
  rx_frame_id_control : Nat
  rx_frame_payload_bytes : Nat
  rx_checksum : Crc32Context
  rx_frame_seq : Nat
  rx_frame_length : Nat
  rx_control : Nat
  rx_frame_payload_buf : Nat → Nat
  rx_frame_checksum : Nat
  msg_queue : List Msg
  output : List Nat

/-- `Context::new` (the mutable part; `Transport::new` reads the clock). -/
def Context.new (now : Nat) : MinCtx :=
  { transport := Transport.new now
    tx_header_byte_countdown := 2
    tx_checksum := crcFresh
    rx_header_bytes_seen := 0
    rx_frame_state := RxState.SearchingForSof
    rx_frame_id_control := 0
    rx_frame_payload_bytes := 0
    rx_checksum := crcFresh
    rx_frame_seq := 0
    rx_frame_length := 0
    rx_control := 0
    rx_frame_payload_buf := fun _ => 0
    rx_frame_checksum := 0
    msg_queue := []
    output := [] }

/-! ### Context operations (`impl Context`) -/

/-- `on_wire_size`: bytes needed for a frame, excluding stuff bytes. -/
def on_wire_size (payload_len : Nat) : Nat := payload_len + 11

/-- Emission of one frame through `on_wire_bytes`: appends the wire bytes to
`output` and leaves `tx_header_byte_countdown` / `tx_checksum` at the values
the byte-stuffer leaves behind. -/
def emit_frame (s : MinCtx) (id_control seq : Nat) (payload_base : List Nat)
    (payload_offset payload_mask payload_len : Nat) : MinCtx :=
  let body := frameBody id_control seq payload_base payload_offset payload_mask payload_len
  let checksum := (crcFold crcFresh body).finalize
  { s with
    output := s.output ++
      on_wire_bytes id_control seq payload_base payload_offset payload_mask payload_len
    tx_header_byte_countdown := cdFold 2 (body ++ crcBytes checksum)
    tx_checksum := crcFold crcFresh (body ++ crcBytes checksum) }

/-- `msg_enqueue`: push the received frame onto the delivery queue. -/
def msg_enqueue (cfg : MinCfg) (s : MinCtx) : MinCtx :=
  { s with
    msg_queue := s.msg_queue ++
      [Msg.new (s.rx_frame_id_control &&& 0x3f) s.rx_frame_payload_buf s.rx_control cfg.port] }

/-- `on_wire_t_frame`: transport-frame send with the `id | 0x80` transport
bit; refuses when `tx_space()` is below `on_wire_size(len)`, computing the
deficit with the (wrapping) `u16` subtraction `len - tx_space()`. -/
def on_wire_t_frame (cfg : MinCfg) (s : MinCtx) (id seq : Nat)
    (payload : List Nat) (len : Nat) : MinCtx × Except Error Nat :=
  if on_wire_size len ≤ cfg.txSpace then
    (emit_frame s (id ||| 0x80) seq payload 0 0xffff len, Except.ok len)
  else
    (s, Except.error (Error.NoEnoughTxSpace (wrap16sub len cfg.txSpace)))

/-- `transport_fifo_frame_send`: stamp `last_received_anything_ms`, refresh
the frame's `last_sent_time_ms` (and `seq` when `update_seq`), then put it on
the wire (the send result is discarded by `unwrap_or(0)`). -/
def transport_fifo_frame_send (cfg : MinCfg) (now : Nat) (s : MinCtx)
    (idx : Nat) (update_seq : Bool) : MinCtx :=
  let s := { s with transport := { s.transport with last_received_anything_ms := now } }
  match s.transport.frames[idx]? with
  | none => s
  | some fr0 =>
    let fr := { fr0 with
      last_sent_time_ms := now
      seq := if update_seq then s.transport.sn_max else fr0.seq }
    let s := { s with transport := { s.transport with frames := s.transport.frames.set idx fr } }
    (on_wire_t_frame cfg s fr.min_id fr.seq
      ((List.range fr.payload_len).map fr.payload) fr.payload_len).1

/-- `send_ack`: an ACK is a transport frame with id_control `0xFF` carrying
`rn` as both sequence number and single payload byte. -/
def send_ack (cfg : MinCfg) (now : Nat) (s : MinCtx) : MinCtx :=
  let s := (on_wire_t_frame cfg s ACK s.transport.rn [s.transport.rn] 1).1
  { s with transport := { s.transport with last_sent_ack_time_ms := now } }

/-- `send_reset`. -/
def send_reset (s : MinCtx) : MinCtx :=
  emit_frame s RESET 0 [] 0 0 0

/-- `valid_frame_received`: the receiving half of the transport protocol. -/
def valid_frame_received (cfg : MinCfg) (now : Nat) (s : MinCtx) : MinCtx :=
  if cfg.t_min then
    let s := { s with transport := { s.transport with last_received_anything_ms := now } }
    if s.rx_frame_id_control = ACK then
      let num_acked := wrap8sub s.rx_frame_seq s.transport.sn_min
      let num_nacked := wrap8sub (s.rx_frame_payload_buf 0) s.rx_frame_seq
      let num_in_window := wrap8sub s.transport.sn_max s.transport.sn_min
      if num_acked ≤ num_in_window then
        let s := { s with transport := { s.transport with sn_min := s.rx_frame_seq } }
        let s := { s with transport := Nat.repeat Transport.pop num_acked s.transport }
        (List.range num_nacked).foldl
          (fun acc i => transport_fifo_frame_send cfg now acc i false) s
      else
        { s with transport :=
            { s.transport with spurious_acks := wrap32add s.transport.spurious_acks 1 } }
    else if s.rx_frame_id_control = RESET then
      let s := { s with transport :=
        { s.transport with resets_received := wrap32add s.transport.resets_received 1 } }
      { s with transport := s.transport.reset_transport_fifo now }
    else
      if s.rx_frame_id_control &&& 0x80 = 0x80 then
        let s := { s with transport := { s.transport with last_received_frame_ms := now } }
        if s.rx_frame_seq = s.transport.rn then
          let s := { s with transport := { s.transport with rn := wrap8add s.transport.rn 1 } }
          msg_enqueue cfg (send_ack cfg now s)
        else
          { s with transport :=
              { s.transport with
                sequence_mismatch_drop := wrap32add s.transport.sequence_mismatch_drop 1 } }
      else msg_enqueue cfg s
  else msg_enqueue cfg s

/-- The `match self.rx_frame_state` block of `rx_byte` (run after the
header-byte bookkeeping). -/
def rx_state_step (cfg : MinCfg) (now : Nat) (s : MinCtx) (b : Nat) : MinCtx :=
  match s.rx_frame_state with
  | RxState.SearchingForSof => s
  | RxState.ReceivingIdControl =>
    let s := { s with
      rx_frame_id_control := b
      rx_frame_payload_bytes := 0
      rx_checksum := crcFresh.step b }
    if b &&& 0x80 = 0x80 then
      if cfg.t_min then { s with rx_frame_state := RxState.ReceivingSeq }
      else { s with rx_frame_state := RxState.SearchingForSof }
    else
      { s with rx_frame_seq := 0, rx_frame_state := RxState.ReceivingLength }
  | RxState.ReceivingSeq =>
    { s with
      rx_frame_seq := b
      rx_checksum := s.rx_checksum.step b
      rx_frame_state := RxState.ReceivingLength }
  | RxState.ReceivingLength =>
    let s := { s with
      rx_frame_length := b
      rx_control := b
      rx_checksum := s.rx_checksum.step b }
    if 0 < b then
      if b ≤ MAX_PAYLOAD then { s with rx_frame_state := RxState.ReceivingPayload }
      else { s with rx_frame_state := RxState.SearchingForSof }
    else { s with rx_frame_state := RxState.ReceivingChecksum3 }
  | RxState.ReceivingPayload =>
    let s := { s with
      rx_frame_payload_buf := fun j =>
        if j = s.rx_frame_payload_bytes then b else s.rx_frame_payload_buf j
      rx_frame_payload_bytes := wrap8add s.rx_frame_payload_bytes 1
      rx_checksum := s.rx_checksum.step b
      rx_frame_length := wrap8sub s.rx_frame_length 1 }
    if s.rx_frame_length = 0 then { s with rx_frame_state := RxState.ReceivingChecksum3 }
    else s
  | RxState.ReceivingChecksum3 =>
    { s with rx_frame_checksum := b * 2 ^ 24, rx_frame_state := RxState.ReceivingChecksum2 }
  | RxState.ReceivingChecksum2 =>
    { s with
      rx_frame_checksum := s.rx_frame_checksum ||| b * 2 ^ 16
      rx_frame_state := RxState.ReceivingChecksum1 }
  | RxState.ReceivingChecksum1 =>
    { s with
      rx_frame_checksum := s.rx_frame_checksum ||| b * 2 ^ 8
      rx_frame_state := RxState.ReceivingChecksum0 }
  | RxState.ReceivingChecksum0 =>
    let s := { s with rx_frame_checksum := s.rx_frame_checksum ||| b }
    if s.rx_checksum.finalize ≠ s.rx_frame_checksum then
      { s with rx_frame_state := RxState.SearchingForSof }
    else { s with rx_frame_state := RxState.ReceivingEof }
  | RxState.ReceivingEof =>
    { (if b = EOF_BYTE then valid_frame_received cfg now s else s) with
      rx_frame_state := RxState.SearchingForSof }

/-- `rx_byte`: the per-byte entry of the receive state machine, including the
triple-`0xAA` resynchronisation and stuff-byte discarding. -/
def rx_byte (cfg : MinCfg) (now : Nat) (s : MinCtx) (b : Nat) : MinCtx :=
  if s.rx_header_bytes_seen = 2 ∧ b = HEADER_BYTE then
    { s with rx_header_bytes_seen := 0, rx_frame_state := RxState.ReceivingIdControl }
  else if s.rx_header_bytes_seen = 2 ∧ b = STUFF_BYTE then
    { s with rx_header_bytes_seen := 0 }
  else
    let s1 :=
      if s.rx_header_bytes_seen = 2 then
        { s with rx_header_bytes_seen := 0, rx_frame_state := RxState.SearchingForSof }
      else s
    let s2 :=
      if b = HEADER_BYTE then
        { s1 with rx_header_bytes_seen := wrap8add s1.rx_header_bytes_seen 1 }
      else { s1 with rx_header_bytes_seen := 0 }
    rx_state_step cfg now s2 b

/-- `find_retransmit_frame`: index and send time of the in-window frame with
the oldest `last_sent_time_ms`. -/
def find_retransmit_frame (now : Nat) (s : MinCtx) : Nat × Nat :=
  let window_size := wrap8sub s.transport.sn_max s.transport.sn_min
  let r := (List.range window_size).foldl
    (fun (acc : Nat × Nat × Nat) i =>
      match s.transport.frames[i]? with
      | some frame =>
        let elapsed := wrap128sub now frame.last_sent_time_ms
        if elapsed > acc.1 then (elapsed, i, frame.last_sent_time_ms) else acc
      | none => acc)
    (0, 0, 0)
  r.2

/-- `push`: unconditional `push_back` plus the frame counters. -/
def Context.push (s : MinCtx) (frame : TransportFrame) : MinCtx :=
  let n := wrap8add s.transport.n_frames 1
  { s with transport :=
      { s.transport with
        frames := s.transport.frames ++ [frame]
        n_frames := n
        n_frames_max := if s.transport.n_frames_max < n then n else s.transport.n_frames_max } }

/-- `send_frame`: application-level send with `id & 0x3F`, seq 0, no
transport bit; the insufficient-space deficit is the (wrapping) `u16`
subtraction `len - tx_space()`. -/
def send_frame (cfg : MinCfg) (s : MinCtx) (id : Nat) (payload : List Nat)
    (len : Nat) : MinCtx × Except Error Nat :=
  if on_wire_size len ≤ cfg.txSpace then
    (emit_frame s (id &&& 0x3f) 0 payload 0 0xffff len, Except.ok len)
  else
    (s, Except.error (Error.NoEnoughTxSpace (wrap16sub len cfg.txSpace)))

/-- `reset_transport`. -/
def reset_transport (cfg : MinCfg) (now : Nat) (s : MinCtx)
    (inform_other_side : Bool) : MinCtx × Except String Unit :=
  if cfg.t_min then
    let s := if inform_other_side then send_reset s else s
    ({ s with transport := s.transport.reset_transport_fifo now }, Except.ok ())
  else (s, Except.error "no transport support.")

/-- `queue_frame`: transport-only append onto the FIFO. -/
def queue_frame (cfg : MinCfg) (s : MinCtx) (id : Nat) (payload : List Nat)
    (len : Nat) : MinCtx × Except String Unit :=
  if cfg.t_min then (Context.push s (TransportFrame.new id payload len), Except.ok ())
  else (s, Except.error "no transport support.")

/-- The `remote_connected` test computed at the top of `poll`'s transport
housekeeping. -/
def remote_connected (now : Nat) (t : Transport) : Bool :=
  wrap128sub now t.last_received_anything_ms < TRANSPORT_IDLE_TIMEOUT_MS

def remote_active (now : Nat) (t : Transport) : Bool :=
  wrap128sub now t.last_received_frame_ms < TRANSPORT_IDLE_TIMEOUT_MS

/-- The ARQ housekeeping run at the end of `poll` when transport is
enabled. -/
def poll_tick (cfg : MinCfg) (now : Nat) (s : MinCtx) : MinCtx :=
  let window_size := wrap8sub s.transport.sn_max s.transport.sn_min
  let s :=
    if window_size < TRANSPORT_MAX_WINDOW_SIZE ∧ window_size < s.transport.n_frames then
      let s := transport_fifo_frame_send cfg now s window_size true
      { s with transport := { s.transport with sn_max := wrap8add s.transport.sn_max 1 } }
    else
      if 0 < window_size ∧ remote_connected now s.transport then
        let r := find_retransmit_frame now s
        if TRANSPORT_FRAME_RETRANSMIT_TIMEOUT_MS ≤ wrap128sub now r.2 then
          transport_fifo_frame_send cfg now s r.1 false
        else s
      else s
  if TRANSPORT_ACK_RETRANSMIT_TIMEOUT_MS < wrap128sub now s.transport.last_sent_ack_time_ms ∧
      remote_active now s.transport then
    send_ack cfg now s
  else s

/-- `poll`: feed the bytes to the receive state machine, then run the
transport housekeeping. -/
def poll (cfg : MinCfg) (now : Nat) (s : MinCtx) (buf : List Nat) : MinCtx :=
  let s := buf.foldl (rx_byte cfg now) s
  if cfg.t_min then poll_tick cfg now s else s

/-- `get_msg`: `Vec::pop` removes the most recent message. -/
def get_msg (s : MinCtx) : MinCtx × Except Error Msg :=
  match s.msg_queue.getLast? with
  | some msg => ({ s with msg_queue := s.msg_queue.dropLast }, Except.ok msg)
  | none => (s, Except.error Error.NoMsg)

/-! ### Auxiliary definitions used by the verification statements -/

/-- The payload-carrying data of a FIFO frame (everything except the
retransmission timestamp). -/
def frameData (f : TransportFrame) : Nat × Nat × Nat × (Nat → Nat) :=
  (f.min_id, f.seq, f.payload_len, f.payload)

/-- `s` with only the `rx_header_bytes_seen` counter replaced. -/
def withHs (s : MinCtx) (h : Nat) : MinCtx := { s with rx_header_bytes_seen := h }

/-- Writing the bytes of `p` into the buffer at consecutive indices starting
at `k` (the effect of the `ReceivingPayload` steps on the payload buffer). -/
def writeList : (Nat → Nat) → Nat → List Nat → Nat → Nat
  | buf, _, [] => buf
  | buf, k, b :: p => writeList (fun j => if j = k then b else buf j) (k + 1) p

/-- Tracks the current run of consecutive `0xAA` bytes through a byte list:
`aaRun r l = none` iff, starting with `r` pending `0xAA`s, somewhere in `l`
a run of three consecutive `0xAA` completes; otherwise it returns the
trailing run length. -/
def aaRun : Nat → List Nat → Option Nat
  | r, [] => some r
  | r, b :: l =>
    if b = HEADER_BYTE then
      if 2 ≤ r then none else aaRun (r + 1) l
    else aaRun 0 l

/-! #### Panic-freedom guards for the receive path (claim C7)

`rx_byte_guards` evaluates, along the exact control path of `rx_byte`, the
preconditions of every operation that can panic in the Rust source:
the `rx_frame_payload_buf[...]` write index (a bounds check in every build),
the `u8` increments/decrements (`rx_header_bytes_seen += 1`,
`rx_frame_length -= 1`, the `n_frames -= 1` of each `Transport::pop`), and
the `Msg::new` reads `payload[0..payload_len]`. -/

def vfr_guards (cfg : MinCfg) (s : MinCtx) : Bool :=
  if cfg.t_min then
    if s.rx_frame_id_control = ACK then
      -- each of the `num_acked` pops decrements `n_frames`
      !(decide (wrap8sub s.rx_frame_seq s.transport.sn_min ≤
          wrap8sub s.transport.sn_max s.transport.sn_min)) ||
        decide (wrap8sub s.rx_frame_seq s.transport.sn_min ≤ s.transport.n_frames)
    else if s.rx_frame_id_control = RESET then true
    else decide (s.rx_control ≤ MAX_PAYLOAD)
  else decide (s.rx_control ≤ MAX_PAYLOAD)

def rx_step_guards (cfg : MinCfg) (s : MinCtx) (b : Nat) : Bool :=
  match s.rx_frame_state with
  | RxState.ReceivingPayload =>
    decide (s.rx_frame_payload_bytes < MAX_PAYLOAD) && decide (1 ≤ s.rx_frame_length)
  | RxState.ReceivingEof => if b = EOF_BYTE then vfr_guards cfg s else true
  | _ => true

def rx_byte_guards (cfg : MinCfg) (s : MinCtx) (b : Nat) : Bool :=
  if s.rx_header_bytes_seen = 2 then true
  else
    (if b = HEADER_BYTE then decide (s.rx_header_bytes_seen + 1 ≤ 255) else true) &&
      rx_step_guards cfg s b

/-- `rx_byte` with the panic guards: `none` models a panic. -/
def rx_byte_checked (cfg : MinCfg) (now : Nat) (s : MinCtx) (b : Nat) : Option MinCtx :=
  if rx_byte_guards cfg s b then some (rx_byte cfg now s b) else none

def rx_fold_checked (cfg : MinCfg) (now : Nat) : MinCtx → List Nat → Option MinCtx
  | s, [] => some s
  | s, b :: bs =>
    match rx_byte_checked cfg now s b with
    | some s' => rx_fold_checked cfg now s' bs
    | none => none

/-- `poll` with the panic guards on the receive path (the housekeeping tick
contains no buffer accesses or unannotated arithmetic besides the deficit
subtraction, which is modelled with its release wrapping semantics). -/
def poll_checked (cfg : MinCfg) (now : Nat) (s : MinCtx) (buf : List Nat) : Option MinCtx :=
  (rx_fold_checked cfg now s buf).map fun s' =>
    if cfg.t_min then poll_tick cfg now s' else s'

/-- The header-independent part of the receive-path invariant: stored bytes
in `u8` range, payload write cursor in bounds for the `ReceivingPayload`
phase (freshly reset when the length byte is still to come), and the
transport window empty (bytes fed to `poll` alone never enqueue transmit
frames on a fresh context). -/
def rx_core (s : MinCtx) : Prop :=
  s.rx_control ≤ 255 ∧
  s.rx_frame_seq < 256 ∧
  (s.rx_frame_state = RxState.ReceivingPayload →
    1 ≤ s.rx_frame_length ∧
    s.rx_frame_payload_bytes + s.rx_frame_length ≤ 255) ∧
  (s.rx_frame_state = RxState.ReceivingSeq ∨
      s.rx_frame_state = RxState.ReceivingLength →
    s.rx_frame_payload_bytes = 0) ∧
  s.transport.sn_min = 0 ∧
  s.transport.sn_max = 0 ∧
  s.transport.n_frames = 0 ∧
  s.transport.frames = []

/-- The state invariant maintained by the receive path from a fresh context:
header counter in range plus `rx_core`. -/
def rx_inv (s : MinCtx) : Prop :=
  s.rx_header_bytes_seen ≤ 2 ∧ rx_core s

/-! ## Helper lemmas -/

theorem on_wire_t_frame_transport (cfg : MinCfg) (s : MinCtx) (id seq : Nat)
    (p : List Nat) (len : Nat) :
    (on_wire_t_frame cfg s id seq p len).1.transport = s.transport := by
  unfold on_wire_t_frame emit_frame
  split <;> rfl

theorem on_wire_t_frame_msg_queue (cfg : MinCfg) (s : MinCtx) (id seq : Nat)
    (p : List Nat) (len : Nat) :
    (on_wire_t_frame cfg s id seq p len).1.msg_queue = s.msg_queue := by
  unfold on_wire_t_frame emit_frame
  split <;> rfl

theorem tffs_msg_queue (cfg : MinCfg) (now : Nat) (s : MinCtx) (idx : Nat) (u : Bool) :
    (transport_fifo_frame_send cfg now s idx u).msg_queue = s.msg_queue := by
  unfold transport_fifo_frame_send
  rcases h : s.transport.frames[idx]? with _ | fr <;>
    simp [h, on_wire_t_frame_msg_queue]

theorem foldl_msg_queue_eq {α : Type} (f : MinCtx → α → MinCtx)
    (hf : ∀ s a, (f s a).msg_queue = s.msg_queue) :
    ∀ (l : List α) (s : MinCtx), (l.foldl f s).msg_queue = s.msg_queue := by
  intro l
  induction l with
  | nil => intro s; rfl
  | cons a t ih => intro s; rw [List.foldl_cons, ih, hf]

/-- On a transport-enabled context, an ACK or RESET frame is consumed by the
transport layer and never enqueued as a message. -/
theorem vfr_ack_reset_no_delivery (cfg : MinCfg) (now : Nat) (s : MinCtx)
    (ht : cfg.t_min = true)
    (h : s.rx_frame_id_control = ACK ∨ s.rx_frame_id_control = RESET) :
    (valid_frame_received cfg now s).msg_queue = s.msg_queue := by
  rcases h with h | h
  · simp only [valid_frame_received, ht, if_true, h, ACK, if_pos rfl]
    split
    · exact foldl_msg_queue_eq _ (fun s i => tffs_msg_queue cfg now s i false) _ _
    · rfl
  · simp only [valid_frame_received, ht, if_true, h, ACK, RESET]
    norm_num

/-! ## Claim C2 -/

/-- C2: `send_frame(id, payload, len)` emits exactly when
`tx_space() ≥ len + 11` and then returns `Ok(len)`; otherwise it emits
nothing and fails with `NoEnoughTxSpace`.  The deficit carried by the error
is the wrapping `u16` subtraction `len - tx_space()` (amended; the claim's
`(len + 11) - tx_space()` is refuted by `c2_counterexample`). -/
theorem c2_send_frame_space (cfg : MinCfg) (s : MinCtx) (id len : Nat) (p : List Nat) :
    (len + 11 ≤ cfg.txSpace →
      (send_frame cfg s id p len).2 = Except.ok len ∧
      (send_frame cfg s id p len).1.output =
        s.output ++ on_wire_bytes (id &&& 0x3f) 0 p 0 0xffff len) ∧
    (cfg.txSpace < len + 11 →
      (send_frame cfg s id p len).1 = s ∧
      (send_frame cfg s id p len).2 =
        Except.error (Error.NoEnoughTxSpace (wrap16sub len cfg.txSpace))) := by
  constructor
  · intro h
    simp [send_frame, on_wire_size, emit_frame, h]
  · intro h
    have h2 : ¬ (on_wire_size len ≤ cfg.txSpace) := by
      simp only [on_wire_size]; omega
    simp [send_frame, h2]

/-- Witness for C2 at concrete inputs on both sides of the space test. -/
theorem c2_send_frame_space_witness :
    (send_frame ⟨false, 0, 100⟩ (Context.new 0) 5 [1, 2] 2).2 = Except.ok 2 ∧
    (send_frame ⟨false, 0, 5⟩ (Context.new 0) 0 [] 0).2 =
      Except.error (Error.NoEnoughTxSpace (wrap16sub 0 5)) :=
  ⟨((c2_send_frame_space ⟨false, 0, 100⟩ (Context.new 0) 5 2 [1, 2]).1 (by decide)).1,
   ((c2_send_frame_space ⟨false, 0, 5⟩ (Context.new 0) 0 0 []).2 (by decide)).2⟩

/-- C2 counterexample: with `tx_space() = 5` and `len = 0` the frame is
refused and the error carries `65531 = (0 - 5) mod 2^16`, not the claimed
`(len + 11) - tx_space() = 6`. -/
theorem c2_deficit_counterexample :
    (send_frame ⟨false, 0, 5⟩ (Context.new 0) 0 [] 0).2 =
      Except.error (Error.NoEnoughTxSpace 65531) ∧
    (0 + 11) - 5 = 6 ∧ (65531 : Nat) ≠ 6 :=
  ⟨rfl, rfl, by decide⟩

/-! ## Claim C8 -/

/-- C8 (amended): `queue_frame` on a transport-enabled context
unconditionally appends to the FIFO; nothing enforces the
`TRANSPORT_FIFO_MAX_FRAMES = 31` bound (which is only the initial capacity
hint of the `VecDeque`), so the frame count is not invariant below 31 —
see `c8_fifo_bound_counterexample`. -/
theorem c8_queue_frame_appends (cfg : MinCfg) (s : MinCtx) (id len : Nat) (p : List Nat)
    (ht : cfg.t_min = true) :
    (queue_frame cfg s id p len).1.transport.frames =
      s.transport.frames ++ [TransportFrame.new id p len] ∧
    (queue_frame cfg s id p len).1.transport.frames.length =
      s.transport.frames.length + 1 := by
  simp [queue_frame, Context.push, ht]

/-- Witness for C8 on a fresh transport context. -/
theorem c8_queue_frame_appends_witness :
    (queue_frame ⟨true, 0, 100⟩ (Context.new 0) 1 [2] 1).1.transport.frames =
      (Context.new 0).transport.frames ++ [TransportFrame.new 1 [2] 1] :=
  (c8_queue_frame_appends ⟨true, 0, 100⟩ (Context.new 0) 1 1 [2] rfl).1

/-- C8 counterexample: 32 calls to `queue_frame` on a fresh transport
context leave 32 frames in the FIFO, violating the claimed ≤ 31 invariant. -/
theorem c8_fifo_bound_counterexample :
    ((List.range 32).foldl (fun s _ => (queue_frame ⟨true, 0, 100⟩ s 0 [] 0).1)
        (Context.new 0)).transport.frames.length = 32 ∧
      ¬ (32 ≤ TRANSPORT_FIFO_MAX_FRAMES) :=
  ⟨rfl, by decide⟩

/-! ## Claim C10 -/

/-- C10: every transmission through `transport_fifo_frame_send` (first sends
and retransmissions alike) stamps `last_received_anything_ms` with the
current time, so `remote_connected` — the test `poll` computes from that
timer — is true at any time within `TRANSPORT_IDLE_TIMEOUT_MS = 500` ms of
the transmission even though nothing was received. -/
theorem c10_send_marks_remote_connected (cfg : MinCfg) (now : Nat) (s : MinCtx)
    (idx : Nat) (update_seq : Bool) :
    (transport_fifo_frame_send cfg now s idx update_seq).transport.last_received_anything_ms
        = now ∧
    ∀ now2, wrap128sub now2 now < TRANSPORT_IDLE_TIMEOUT_MS →
      remote_connected now2 (transport_fifo_frame_send cfg now s idx update_seq).transport
        = true := by
  have hl : (transport_fifo_frame_send cfg now s idx
      update_seq).transport.last_received_anything_ms = now := by
    unfold transport_fifo_frame_send
    rcases h : s.transport.frames[idx]? with _ | fr <;>
      simp [h, on_wire_t_frame_transport]
  exact ⟨hl, fun now2 h2 => by simp [remote_connected, hl, h2]⟩

/-- Witness for C10: a retransmission at t=1000 keeps the peer "connected"
at t=1200 with no bytes received. -/
theorem c10_send_marks_remote_connected_witness :
    remote_connected 1200
      (transport_fifo_frame_send ⟨true, 0, 100⟩ 1000 (Context.new 0) 0 false).transport
      = true :=
  (c10_send_marks_remote_connected ⟨true, 0, 100⟩ 1000 (Context.new 0) 0 false).2
    1200 (by decide)

/-! ## Claim C4 -/

theorem set_self {α : Type} : ∀ (l : List α) (i : Nat) (a : α),
    l[i]? = some a → l.set i a = l := by
  intro l
  induction l with
  | nil => intro i a h; simp at h
  | cons x t ih =>
    intro i a h
    cases i with
    | zero => simp_all
    | succ i => simp_all

theorem repeat_pop_frames (n : Nat) (t : Transport) :
    (Nat.repeat Transport.pop n t).frames = t.frames.drop n := by
  induction n with
  | zero => simp [Nat.repeat]
  | succ n ih => simp [Nat.repeat, Transport.pop, ih, List.tail_drop]

theorem repeat_pop_sn (n : Nat) (t : Transport) :
    (Nat.repeat Transport.pop n t).sn_min = t.sn_min ∧
    (Nat.repeat Transport.pop n t).sn_max = t.sn_max := by
  induction n with
  | zero => exact ⟨rfl, rfl⟩
  | succ n ih => simpa [Nat.repeat, Transport.pop] using ih

/-- A retransmission (`update_seq = false`) only refreshes a frame's
`last_sent_time_ms`: the FIFO's payload data and the window bounds are
untouched. -/
theorem tffs_false_window (cfg : MinCfg) (now : Nat) (s : MinCtx) (idx : Nat) :
    (transport_fifo_frame_send cfg now s idx false).transport.frames.map frameData =
      s.transport.frames.map frameData ∧
    (transport_fifo_frame_send cfg now s idx false).transport.sn_min =
      s.transport.sn_min ∧
    (transport_fifo_frame_send cfg now s idx false).transport.sn_max =
      s.transport.sn_max := by
  unfold transport_fifo_frame_send
  rcases h : s.transport.frames[idx]? with _ | fr
  · simp [h]
  · refine ⟨?_, by simp [h, on_wire_t_frame_transport], by simp [h, on_wire_t_frame_transport]⟩
    have hmap : (s.transport.frames.map frameData)[idx]? = some (frameData fr) := by
      simp [h]
    simp only [h, on_wire_t_frame_transport, List.map_set]
    exact set_self _ _ _ hmap

theorem foldl_tffs_false_window (cfg : MinCfg) (now : Nat) :
    ∀ (l : List Nat) (s : MinCtx),
      ((l.foldl (fun acc i => transport_fifo_frame_send cfg now acc i false)
          s).transport.frames.map frameData = s.transport.frames.map frameData ∧
        (l.foldl (fun acc i => transport_fifo_frame_send cfg now acc i false)
          s).transport.sn_min = s.transport.sn_min ∧
        (l.foldl (fun acc i => transport_fifo_frame_send cfg now acc i false)
          s).transport.sn_max = s.transport.sn_max) := by
  intro l
  induction l with
  | nil => intro s; exact ⟨rfl, rfl, rfl⟩
  | cons a t ih =>
    intro s
    have h1 := tffs_false_window cfg now s a
    have h2 := ih (transport_fifo_frame_send cfg now s a false)
    rw [List.foldl_cons]
    exact ⟨h2.1.trans h1.1, h2.2.1.trans h1.2.1, h2.2.2.trans h1.2.2⟩

/-- C4: processing a validated ACK with sequence `s`: when
`num_acked = s - sn_min (mod 256)` is at most the window width
`sn_max - sn_min (mod 256)`, `sn_min` becomes `s` and exactly `num_acked`
frames are removed from the front of the FIFO (retransmissions only refresh
send timestamps); otherwise only `spurious_acks` is bumped and the window
and FIFO are untouched. -/
theorem c4_ack_window_advance (cfg : MinCfg) (now : Nat) (s : MinCtx)
    (ht : cfg.t_min = true) (hidc : s.rx_frame_id_control = ACK) :
    (wrap8sub s.rx_frame_seq s.transport.sn_min ≤
        wrap8sub s.transport.sn_max s.transport.sn_min →
      (valid_frame_received cfg now s).transport.sn_min = s.rx_frame_seq ∧
      (valid_frame_received cfg now s).transport.frames.map frameData =
        (s.transport.frames.drop
          (wrap8sub s.rx_frame_seq s.transport.sn_min)).map frameData ∧
      (valid_frame_received cfg now s).transport.sn_max = s.transport.sn_max) ∧
    (wrap8sub s.transport.sn_max s.transport.sn_min <
        wrap8sub s.rx_frame_seq s.transport.sn_min →
      (valid_frame_received cfg now s).transport.spurious_acks =
        wrap32add s.transport.spurious_acks 1 ∧
      (valid_frame_received cfg now s).transport.sn_min = s.transport.sn_min ∧
      (valid_frame_received cfg now s).transport.sn_max = s.transport.sn_max ∧
      (valid_frame_received cfg now s).transport.frames = s.transport.frames) := by
  constructor
  · intro h
    simp only [valid_frame_received, ht, if_true, hidc]
    rw [if_pos h]
    refine ⟨?_, ?_, ?_⟩
    · rw [(foldl_tffs_false_window cfg now _ _).2.1]
      simp [(repeat_pop_sn _ _).1]
    · rw [(foldl_tffs_false_window cfg now _ _).1]
      simp [repeat_pop_frames]
    · rw [(foldl_tffs_false_window cfg now _ _).2.2]
      simp [(repeat_pop_sn _ _).2]
  · intro h
    have h2 : ¬ (wrap8sub s.rx_frame_seq s.transport.sn_min ≤
        wrap8sub s.transport.sn_max s.transport.sn_min) := by omega
    simp only [valid_frame_received, ht, if_true, hidc]
    rw [if_neg h2]
    simp

/-- Witness for C4: an ACK for seq 2 with window `[sn_min, sn_max) = [0, 3)`
advances `sn_min` to 2 and drops the first two FIFO frames. -/
theorem c4_ack_window_advance_witness :
    (valid_frame_received ⟨true, 0, 1000⟩ 9
        { Context.new 0 with
          rx_frame_id_control := 0xff
          rx_frame_seq := 2
          transport :=
            { Transport.new 0 with
              sn_max := 3
              n_frames := 3
              frames := [TransportFrame.new 1 [] 0, TransportFrame.new 2 [] 0,
                TransportFrame.new 3 [] 0] } }).transport.sn_min = 2 :=
  ((c4_ack_window_advance ⟨true, 0, 1000⟩ 9 _ rfl rfl).1 (by decide)).1

/-! ## Claim C3 -/

/-- C3: a validated transport application frame (bit 7 set, id_control
neither ACK nor RESET) on a transport-enabled context (with room for the
12-byte ACK in the tx buffer): if its seq equals `rn`, `rn` advances by
exactly one (mod 256), an ACK carrying the new `rn` goes out immediately and
exactly one message is enqueued; otherwise the frame is dropped,
`sequence_mismatch_drop` is bumped and neither an ACK nor a message is
produced. -/
theorem c3_transport_frame_rx (cfg : MinCfg) (now : Nat) (s : MinCtx)
    (ht : cfg.t_min = true)
    (hbit : s.rx_frame_id_control &&& 0x80 = 0x80)
    (hack : s.rx_frame_id_control ≠ ACK)
    (hrst : s.rx_frame_id_control ≠ RESET)
    (hsp : 12 ≤ cfg.txSpace) :
    (s.rx_frame_seq = s.transport.rn →
      (valid_frame_received cfg now s).transport.rn = wrap8add s.transport.rn 1 ∧
      (valid_frame_received cfg now s).output = s.output ++
        on_wire_bytes ACK (wrap8add s.transport.rn 1)
          [wrap8add s.transport.rn 1] 0 0xffff 1 ∧
      (valid_frame_received cfg now s).msg_queue = s.msg_queue ++
        [Msg.new (s.rx_frame_id_control &&& 0x3f) s.rx_frame_payload_buf
          s.rx_control cfg.port] ∧
      (valid_frame_received cfg now s).transport.sequence_mismatch_drop =
        s.transport.sequence_mismatch_drop) ∧
    (s.rx_frame_seq ≠ s.transport.rn →
      (valid_frame_received cfg now s).transport.rn = s.transport.rn ∧
      (valid_frame_received cfg now s).transport.sequence_mismatch_drop =
        wrap32add s.transport.sequence_mismatch_drop 1 ∧
      (valid_frame_received cfg now s).output = s.output ∧
      (valid_frame_received cfg now s).msg_queue = s.msg_queue) := by
  have hor : (0xff : Nat) ||| 0x80 = 0xff := by decide
  have hack' : s.rx_frame_id_control ≠ 0xff := by simpa [ACK] using hack
  have hrst' : s.rx_frame_id_control ≠ 0xfe := by simpa [RESET] using hrst
  constructor
  · intro h
    simp [valid_frame_received, ACK, RESET, ht, hack', hrst', hbit, h, msg_enqueue,
      send_ack, on_wire_t_frame, emit_frame, on_wire_size, hsp, hor]
  · intro h
    simp [valid_frame_received, ACK, RESET, ht, hack', hrst', hbit, h]

/-- Witness for C3: frame id_control 0x81, seq 0 on a fresh transport
context advances `rn` to 1. -/
theorem c3_transport_frame_rx_witness :
    (valid_frame_received ⟨true, 0, 1000⟩ 5
        { Context.new 0 with rx_frame_id_control := 0x81 }).transport.rn =
      wrap8add 0 1 :=
  ((c3_transport_frame_rx ⟨true, 0, 1000⟩ 5
      { Context.new 0 with rx_frame_id_control := 0x81 }
      rfl (by decide) (by decide) (by decide) (by decide)).1 rfl).1

/-! ## Claim C9 -/

/-- C9: `queue_frame` stores its id argument unmasked; the wire frame sent
for a queued frame carries `id_control = id | 0x80`, preserving all seven
low bits, so ids with `id & 0x7F` equal to `0x7F` / `0x7E` produce
id_control `0xFF` / `0xFE`, which the receiving transport peer consumes as
ACK / RESET without delivering any message. -/
theorem c9_queue_frame_id_collision (cfg : MinCfg) (s r : MinCtx)
    (id seq len now : Nat) (p : List Nat)
    (hid : id < 256) (ht : cfg.t_min = true) (hsp : len + 11 ≤ cfg.txSpace) :
    ((queue_frame cfg s id p len).1.transport.frames.getLast? =
        some (TransportFrame.new id p len) ∧
      (TransportFrame.new id p len).min_id = id) ∧
    ((on_wire_t_frame cfg s id seq p len).1.output =
        s.output ++ on_wire_bytes (id ||| 0x80) seq p 0 0xffff len ∧
      (id ||| 0x80) &&& 0x7f = id &&& 0x7f) ∧
    (id &&& 0x7f = 0x7f → id ||| 0x80 = ACK) ∧
    (id &&& 0x7f = 0x7e → id ||| 0x80 = RESET) ∧
    ((r.rx_frame_id_control = ACK ∨ r.rx_frame_id_control = RESET) →
      (valid_frame_received cfg now r).msg_queue = r.msg_queue) := by
  refine ⟨⟨?_, rfl⟩, ⟨?_, ?_⟩, ?_, ?_,
    fun h => vfr_ack_reset_no_delivery cfg now r ht h⟩
  · simp [queue_frame, Context.push, ht, List.getLast?_concat]
  · simp [on_wire_t_frame, emit_frame, on_wire_size, hsp]
  · exact (by decide : ∀ i, i < 256 → (i ||| 0x80) &&& 0x7f = i &&& 0x7f) id hid
  · exact (by decide : ∀ i, i < 256 → i &&& 0x7f = 0x7f → i ||| 0x80 = ACK) id hid
  · exact (by decide : ∀ i, i < 256 → i &&& 0x7f = 0x7e → i ||| 0x80 = RESET) id hid

/-- Witness for C9 at id 0x7F (all low bits set): the queued frame keeps
min_id 0x7F and its wire id_control is the ACK code 0xFF. -/
theorem c9_queue_frame_id_collision_witness :
    (queue_frame ⟨true, 0, 100⟩ (Context.new 0) 0x7f [] 0).1.transport.frames.getLast? =
      some (TransportFrame.new 0x7f [] 0) ∧ (0x7f ||| 0x80 : Nat) = ACK :=
  ⟨(c9_queue_frame_id_collision ⟨true, 0, 100⟩ (Context.new 0) (Context.new 0)
      0x7f 0 0 0 [] (by decide) rfl (by decide)).1.1,
   (c9_queue_frame_id_collision ⟨true, 0, 100⟩ (Context.new 0) (Context.new 0)
      0x7f 0 0 0 [] (by decide) rfl (by decide)).2.2.1 (by decide)⟩

/-! ## Claim C5 -/

theorem cdFold_mem : ∀ (bs : List Nat) (c : Nat), c = 1 ∨ c = 2 →
    cdFold c bs = 1 ∨ cdFold c bs = 2 := by
  intro bs
  induction bs with
  | nil => intro c hc; simpa [cdFold] using hc
  | cons b t ih =>
    intro c hc
    have he : cdFold c (b :: t) = cdFold (cdStep c b) t := rfl
    rw [he]
    apply ih
    rcases hc with h | h <;> subst h <;> by_cases hb : b = HEADER_BYTE <;>
      simp [cdStep, hb]

/-- Running the `0xAA`-run tracker over the stuffer's output: starting with
`2 - c` pending header bytes (matching countdown `c`), no run of three ever
completes, and the pending run at the end again matches the countdown. -/
theorem aaRun_stuffed (l : List Nat) : ∀ (bs : List Nat) (c : Nat), c = 1 ∨ c = 2 →
    aaRun (2 - c) (stuffed c bs ++ l) = aaRun (2 - cdFold c bs) l := by
  intro bs
  induction bs with
  | nil => intro c hc; simp [stuffed, cdFold]
  | cons b t ih =>
    intro c hc
    by_cases hb : b = HEADER_BYTE
    · subst hb
      rcases hc with h | h <;> subst h
      · simpa [stuffed, aaRun, cdFold, cdStep, HEADER_BYTE, STUFF_BYTE]
          using ih 2 (Or.inr rfl)
      · simpa [stuffed, aaRun, cdFold, cdStep, HEADER_BYTE, STUFF_BYTE]
          using ih 1 (Or.inl rfl)
    · simpa [stuffed, aaRun, cdFold, cdStep, hb] using ih 2 (Or.inr rfl)

/-- If the run tracker survives a byte list, the list contains no window of
three consecutive `0xAA` bytes. -/
theorem aaRun_no_triple : ∀ (l : List Nat) (r r' : Nat), aaRun r l = some r' →
    ∀ i, ¬ (l[i]? = some HEADER_BYTE ∧ l[i + 1]? = some HEADER_BYTE ∧
      l[i + 2]? = some HEADER_BYTE) := by
  intro l
  induction l with
  | nil => intro r r' h i hc; simp at hc
  | cons b t ih =>
    intro r r' h i hc
    by_cases hb : b = HEADER_BYTE
    · by_cases hr : 2 ≤ r
      · simp [aaRun, hb, hr] at h
      · have h' : aaRun (r + 1) t = some r' := by simpa [aaRun, hb, hr] using h
        cases i with
        | zero =>
          obtain ⟨h0, h1, h2⟩ := hc
          cases t with
          | nil => simp at h1
          | cons c t2 =>
            have hc' : c = HEADER_BYTE := by simpa using h1
            subst hc'
            by_cases hr1 : 2 ≤ r + 1
            · simp [aaRun, hr1] at h'
            · have h'' : aaRun (r + 2) t2 = some r' := by simpa [aaRun, hr1] using h'
              cases t2 with
              | nil => simp at h2
              | cons d t3 =>
                have hd : d = HEADER_BYTE := by simpa using h2
                subst hd
                simp [aaRun] at h''
        | succ i' => exact ih (r + 1) r' h' i' (by simpa using hc)
    · have h' : aaRun 0 t = some r' := by simpa [aaRun, hb] using h
      cases i with
      | zero => exact hb (by simpa using hc.1)
      | succ i' => exact ih 0 r' h' i' (by simpa using hc)

/-- C5 (amended): in any frame the codec emits, every window of three
consecutive `0xAA` bytes overlaps the leading start-of-frame marker (it
starts at index ≤ 2); equivalently the stuffed body and EOF contain no
`0xAA` triple.  The claim's stronger reading — that the only triple is the
marker itself at index 0 — fails when `id_control = 0xAA`
(`c5_triple_counterexample`): the marker plus a stuffed `0xAA` form windows
at indices 1 and 2. -/
theorem c5_stuffing_no_interior_triple (id_control seq : Nat) (payload : List Nat)
    (payload_offset payload_mask payload_len i : Nat)
    (h0 : (on_wire_bytes id_control seq payload payload_offset payload_mask
        payload_len)[i]? = some 0xaa)
    (h1 : (on_wire_bytes id_control seq payload payload_offset payload_mask
        payload_len)[i + 1]? = some 0xaa)
    (h2 : (on_wire_bytes id_control seq payload payload_offset payload_mask
        payload_len)[i + 2]? = some 0xaa) :
    i ≤ 2 := by
  by_contra hgt
  obtain ⟨j, rfl⟩ : ∃ j, i = j + 3 := ⟨i - 3, by omega⟩
  have hw : on_wire_bytes id_control seq payload payload_offset payload_mask payload_len
      = HEADER_BYTE :: HEADER_BYTE :: HEADER_BYTE ::
        (stuffed 2 (frameBody id_control seq payload payload_offset payload_mask
            payload_len ++
          crcBytes ((crcFold crcFresh (frameBody id_control seq payload payload_offset
            payload_mask payload_len)).finalize)) ++ [EOF_BYTE]) := rfl
  rw [hw] at h0 h1 h2
  simp only [List.getElem?_cons_succ] at h0 h1 h2
  have hsome : aaRun 0
      (stuffed 2 (frameBody id_control seq payload payload_offset payload_mask
          payload_len ++
        crcBytes ((crcFold crcFresh (frameBody id_control seq payload payload_offset
          payload_mask payload_len)).finalize)) ++ [EOF_BYTE]) = some 0 := by
    rw [show (0 : Nat) = 2 - 2 from rfl, aaRun_stuffed _ _ 2 (Or.inr rfl)]
    simp [aaRun, EOF_BYTE, HEADER_BYTE]
  exact aaRun_no_triple _ 0 0 hsome j ⟨h0, h1, h2⟩

/-- Witness for C5: on the encoding of the empty frame with id 0, the only
`0xAA` window is the marker at index 0, within the bound. -/
theorem c5_stuffing_no_interior_triple_witness :
    (on_wire_bytes 0 0 [] 0 0xffff 0)[0]? = some 0xaa ∧
    (on_wire_bytes 0 0 [] 0 0xffff 0)[1]? = some 0xaa ∧
    (on_wire_bytes 0 0 [] 0 0xffff 0)[2]? = some 0xaa ∧
    (0 : Nat) ≤ 2 :=
  ⟨by decide, by decide, by decide,
    c5_stuffing_no_interior_triple 0 0 [] 0 0xffff 0 0
      (by decide) (by decide) (by decide)⟩

/-! ## Header-counter independence

`rx_state_step` (and everything it calls) neither reads nor writes
`rx_header_bytes_seen`; these commutation lemmas let the per-byte header
bookkeeping of `rx_byte` be tracked separately from the state machine. -/

theorem withHs_withHs (s : MinCtx) (h1 h2 : Nat) :
    withHs (withHs s h1) h2 = withHs s h2 := rfl

theorem withHs_hs (s : MinCtx) (h : Nat) :
    (withHs s h).rx_header_bytes_seen = h := rfl

theorem withHs_self (s : MinCtx) : withHs s s.rx_header_bytes_seen = s := rfl

theorem withHs_rx_frame_state (s : MinCtx) (h : Nat) :
    (withHs s h).rx_frame_state = s.rx_frame_state := rfl

theorem withHs_rx_frame_payload_bytes (s : MinCtx) (h : Nat) :
    (withHs s h).rx_frame_payload_bytes = s.rx_frame_payload_bytes := rfl

theorem withHs_rx_checksum (s : MinCtx) (h : Nat) :
    (withHs s h).rx_checksum = s.rx_checksum := rfl

theorem withHs_rx_frame_length (s : MinCtx) (h : Nat) :
    (withHs s h).rx_frame_length = s.rx_frame_length := rfl

theorem withHs_rx_frame_checksum (s : MinCtx) (h : Nat) :
    (withHs s h).rx_frame_checksum = s.rx_frame_checksum := rfl

theorem withHs_rx_frame_id_control (s : MinCtx) (h : Nat) :
    (withHs s h).rx_frame_id_control = s.rx_frame_id_control := rfl

theorem withHs_rx_frame_seq (s : MinCtx) (h : Nat) :
    (withHs s h).rx_frame_seq = s.rx_frame_seq := rfl

theorem withHs_rx_control (s : MinCtx) (h : Nat) :
    (withHs s h).rx_control = s.rx_control := rfl

theorem withHs_rx_frame_payload_buf (s : MinCtx) (h : Nat) :
    (withHs s h).rx_frame_payload_buf = s.rx_frame_payload_buf := rfl

theorem withHs_msg_queue (s : MinCtx) (h : Nat) :
    (withHs s h).msg_queue = s.msg_queue := rfl

theorem on_wire_t_frame_withHs (cfg : MinCfg) (s : MinCtx) (id seq : Nat)
    (p : List Nat) (len h : Nat) :
    (on_wire_t_frame cfg (withHs s h) id seq p len).1 =
      withHs (on_wire_t_frame cfg s id seq p len).1 h := by
  unfold on_wire_t_frame emit_frame
  split <;> rfl

theorem withHs_transport (s : MinCtx) (h : Nat) :
    (withHs s h).transport = s.transport := rfl

theorem tffs_withHs (cfg : MinCfg) (now : Nat) (s : MinCtx) (idx : Nat) (u : Bool)
    (h : Nat) :
    transport_fifo_frame_send cfg now (withHs s h) idx u =
      withHs (transport_fifo_frame_send cfg now s idx u) h := by
  rcases hf : s.transport.frames[idx]? with _ | fr
  · unfold transport_fifo_frame_send
    simp only [withHs_transport, hf]
    rfl
  · unfold transport_fifo_frame_send
    simp only [withHs_transport, hf]
    exact on_wire_t_frame_withHs cfg
      { s with transport :=
          { s.transport with
            last_received_anything_ms := now
            frames := s.transport.frames.set idx
              { fr with
                last_sent_time_ms := now
                seq := if u = true then s.transport.sn_max else fr.seq } } }
      fr.min_id (if u = true then s.transport.sn_max else fr.seq)
      ((List.range fr.payload_len).map fr.payload) fr.payload_len h

theorem foldl_withHs_comm {α : Type} (f : MinCtx → α → MinCtx)
    (hf : ∀ (s : MinCtx) (a : α) (h : Nat), f (withHs s h) a = withHs (f s a) h) :
    ∀ (l : List α) (s : MinCtx) (h : Nat),
      l.foldl f (withHs s h) = withHs (l.foldl f s) h := by
  intro l
  induction l with
  | nil => intro s h; rfl
  | cons a t ih =>
    intro s h
    rw [List.foldl_cons, List.foldl_cons, hf, ih]

theorem vfr_withHs (cfg : MinCfg) (now : Nat) (s : MinCtx) (h : Nat) :
    valid_frame_received cfg now (withHs s h) =
      withHs (valid_frame_received cfg now s) h := by
  by_cases ht : cfg.t_min = true
  case neg =>
    unfold valid_frame_received
    simp only [if_neg ht]
    rfl
  case pos =>
    unfold valid_frame_received
    simp only [withHs_rx_frame_id_control, withHs_rx_frame_seq,
      withHs_rx_frame_payload_buf, withHs_transport]
    simp only [if_pos ht]
    by_cases hack : s.rx_frame_id_control = ACK
    · simp only [if_pos hack]
      by_cases hna : wrap8sub s.rx_frame_seq s.transport.sn_min ≤
          wrap8sub s.transport.sn_max s.transport.sn_min
      · simp only [if_pos hna]
        exact foldl_withHs_comm
          (fun acc i => transport_fifo_frame_send cfg now acc i false)
          (fun s a h => tffs_withHs cfg now s a false h)
          (List.range (wrap8sub (s.rx_frame_payload_buf 0) s.rx_frame_seq))
          ({ s with transport :=
              (Nat.repeat Transport.pop (wrap8sub s.rx_frame_seq s.transport.sn_min)
                { s.transport with
                  last_received_anything_ms := now
                  sn_min := s.rx_frame_seq }) })
          h
      · simp only [if_neg hna]
        rfl
    · simp only [if_neg hack]
      by_cases hrst : s.rx_frame_id_control = RESET
      · simp only [if_pos hrst]
        rfl
      · simp only [if_neg hrst]
        by_cases hbit : s.rx_frame_id_control &&& 0x80 = 0x80
        · simp only [if_pos hbit]
          by_cases hseq : s.rx_frame_seq = s.transport.rn
          · simp only [if_pos hseq]
            unfold msg_enqueue send_ack on_wire_t_frame emit_frame
            by_cases hsp : on_wire_size 1 ≤ cfg.txSpace
            · simp only [if_pos hsp]
              rfl
            · simp only [if_neg hsp]
              rfl
          · simp only [if_neg hseq]
            rfl
        · simp only [if_neg hbit]
          rfl

theorem rx_state_step_withHs (cfg : MinCfg) (now : Nat) (s : MinCtx) (b h : Nat) :
    rx_state_step cfg now (withHs s h) b = withHs (rx_state_step cfg now s b) h := by
  cases hst : s.rx_frame_state <;>
    simp only [rx_state_step, hst, withHs_rx_frame_state, withHs_rx_frame_payload_bytes,
      withHs_rx_checksum, withHs_rx_frame_length, withHs_rx_frame_checksum,
      withHs_rx_frame_id_control, withHs_rx_frame_seq, withHs_rx_control,
      withHs_rx_frame_payload_buf] <;>
    first
      | rfl
      | (split_ifs <;> rfl)
      | (rw [vfr_withHs]; by_cases hb : b = EOF_BYTE <;> simp [hb] <;> rfl)

/-- C5 counterexample: the transport frame with `id_control = 0xAA`
(`id = 0x2A` sent through `on_wire_t_frame`) opens with four consecutive
`0xAA` bytes, so a window of three consecutive `0xAA` starts at index 1 —
a triple other than the leading marker at index 0. -/
theorem c5_triple_counterexample :
    (on_wire_bytes 0xaa 0 [] 0 0xffff 0)[1]? = some 0xaa ∧
    (on_wire_bytes 0xaa 0 [] 0 0xffff 0)[2]? = some 0xaa ∧
    (on_wire_bytes 0xaa 0 [] 0 0xffff 0)[3]? = some 0xaa ∧
    (1 : Nat) ≠ 0 := by
  refine ⟨by decide, by decide, by decide, by decide⟩


/-! ## The receive machine consumes stuffed streams (claims C1, C6) -/

/-- A body byte other than `0xAA` when fewer than two header bytes are
pending: the header counter resets to 0 and the state machine consumes the
byte. -/
theorem rx_byte_body_step (cfg : MinCfg) (now : Nat) (s : MinCtx) (b h : Nat)
    (hh : h ≠ 2) (hb : b ≠ HEADER_BYTE) :
    rx_byte cfg now (withHs s h) b = withHs (rx_state_step cfg now s b) 0 := by
  unfold rx_byte
  simp only [withHs_hs, hh, hb, false_and, if_false, ite_false, if_neg hh, if_neg hb]
  exact rx_state_step_withHs cfg now s b 0

/-- A `0xAA` byte with fewer than two pending: the counter advances and the
state machine consumes the byte. -/
theorem rx_byte_aa_step (cfg : MinCfg) (now : Nat) (s : MinCtx) (h : Nat)
    (hh : h ≠ 2) (hlt : h < 255) :
    rx_byte cfg now (withHs s h) HEADER_BYTE =
      withHs (rx_state_step cfg now s HEADER_BYTE) (h + 1) := by
  have hw : wrap8add h 1 = h + 1 := by
    unfold wrap8add
    omega
  unfold rx_byte
  simp only [withHs_hs, hh, false_and, if_false, if_neg hh, hw]
  exact rx_state_step_withHs cfg now s HEADER_BYTE (h + 1)

/-- The stuff byte after two pending `0xAA`s is discarded. -/
theorem rx_byte_stuff_at2 (cfg : MinCfg) (now : Nat) (s : MinCtx) :
    rx_byte cfg now (withHs s 2) STUFF_BYTE = withHs s 0 := by
  unfold rx_byte
  simp [withHs_hs, STUFF_BYTE, HEADER_BYTE]
  rfl

/-- The third `0xAA` resynchronises to `ReceivingIdControl`. -/
theorem rx_byte_aa_at2 (cfg : MinCfg) (now : Nat) (s : MinCtx) :
    rx_byte cfg now (withHs s 2) HEADER_BYTE =
      withHs { s with rx_frame_state := RxState.ReceivingIdControl } 0 := by
  unfold rx_byte
  simp [withHs_hs]
  rfl

/-- The receive state machine run over a byte-stuffer output: starting with
`2 - c` pending header bytes (countdown `c`), `rx_byte` consumes exactly the
logical bytes, discards the stuff bytes, and ends with `2 - cdFold c bs`
pending header bytes. -/
theorem rx_stuffed_fold (cfg : MinCfg) (now : Nat) :
    ∀ (bs : List Nat) (c : Nat) (s : MinCtx), c = 1 ∨ c = 2 →
      List.foldl (rx_byte cfg now) (withHs s (2 - c)) (stuffed c bs) =
        withHs (List.foldl (rx_state_step cfg now) s bs) (2 - cdFold c bs) := by
  intro bs
  induction bs with
  | nil =>
    intro c s hc
    simp [stuffed, cdFold]
  | cons b t ih =>
    intro c s hc
    by_cases hb : b = HEADER_BYTE
    · subst hb
      rcases hc with h | h <;> subst h
      · have e1 : stuffed 1 (HEADER_BYTE :: t) =
            HEADER_BYTE :: STUFF_BYTE :: stuffed 2 t := by simp [stuffed]
        rw [e1, List.foldl_cons, List.foldl_cons,
          show (2 - 1 : Nat) = 1 from rfl,
          rx_byte_aa_step cfg now s 1 (by decide) (by decide),
          show (1 + 1 : Nat) = 2 from rfl,
          rx_byte_stuff_at2]
        simpa [cdFold, cdStep] using
          ih 2 (rx_state_step cfg now s HEADER_BYTE) (Or.inr rfl)
      · have e1 : stuffed 2 (HEADER_BYTE :: t) =
            HEADER_BYTE :: stuffed 1 t := by simp [stuffed]
        rw [e1, List.foldl_cons,
          show (2 - 2 : Nat) = 0 from rfl,
          rx_byte_aa_step cfg now s 0 (by decide) (by decide)]
        simpa [cdFold, cdStep] using
          ih 1 (rx_state_step cfg now s HEADER_BYTE) (Or.inl rfl)
    · have e1 : stuffed c (b :: t) = b :: stuffed 2 t := by
        rcases hc with h | h <;> subst h <;> simp [stuffed, hb]
      have hne : (2 - c : Nat) ≠ 2 := by
        rcases hc with h | h <;> subst h <;> decide
      rw [e1, List.foldl_cons, rx_byte_body_step cfg now s b (2 - c) hne hb]
      simpa [cdFold, cdStep, hb] using
        ih 2 (rx_state_step cfg now s b) (Or.inr rfl)


/-- The `ReceivingPayload` phase: consuming the `p.length` payload bytes
writes them at consecutive buffer indices, feeds them to the CRC, and ends
in `ReceivingChecksum3`. -/
theorem payload_phase (cfg : MinCfg) (now : Nat) :
    ∀ (p : List Nat) (s : MinCtx),
      s.rx_frame_state = RxState.ReceivingPayload →
      s.rx_frame_length = p.length →
      1 ≤ p.length →
      s.rx_frame_payload_bytes + p.length ≤ 255 →
      List.foldl (rx_state_step cfg now) s p =
        { s with
          rx_frame_state := RxState.ReceivingChecksum3
          rx_frame_length := 0
          rx_frame_payload_bytes := s.rx_frame_payload_bytes + p.length
          rx_checksum := crcFold s.rx_checksum p
          rx_frame_payload_buf :=
            writeList s.rx_frame_payload_buf s.rx_frame_payload_bytes p } := by
  intro p
  induction p with
  | nil => intro s h1 h2 h3 h4; simp at h3
  | cons b t ih =>
    intro s h1 h2 h3 h4
    have hlen1 : wrap8sub s.rx_frame_length 1 = t.length := by
      unfold wrap8sub
      simp only [List.length_cons] at h2 h4
      omega
    have hpb : wrap8add s.rx_frame_payload_bytes 1 = s.rx_frame_payload_bytes + 1 := by
      unfold wrap8add
      simp only [List.length_cons] at h4
      omega
    rw [List.foldl_cons]
    by_cases ht0 : t.length = 0
    · have ht : t = [] := List.length_eq_zero.mp ht0
      subst ht
      simp only [rx_state_step, h1, hlen1, ht0, if_pos rfl, List.foldl_nil]
      simp only [hpb]
      rfl
    · have estep : rx_state_step cfg now s b =
          { s with
            rx_frame_payload_buf := fun j =>
              if j = s.rx_frame_payload_bytes then b else s.rx_frame_payload_buf j
            rx_frame_payload_bytes := s.rx_frame_payload_bytes + 1
            rx_checksum := s.rx_checksum.step b
            rx_frame_length := t.length } := by
        simp only [rx_state_step, h1, hlen1, hpb, if_neg ht0]
      have hih := ih
        { s with
          rx_frame_payload_buf := fun j =>
            if j = s.rx_frame_payload_bytes then b else s.rx_frame_payload_buf j
          rx_frame_payload_bytes := s.rx_frame_payload_bytes + 1
          rx_checksum := s.rx_checksum.step b
          rx_frame_length := t.length }
        h1 rfl (by omega)
        (by simp only [List.length_cons] at h4; simp only []; omega)
      rw [estep, hih]
      simp only [List.length_cons]
      have harith : s.rx_frame_payload_bytes + 1 + t.length =
          s.rx_frame_payload_bytes + (t.length + 1) := by omega
      rw [harith]
      rfl


/-! ## CRC value bounds and checksum reassembly -/

theorem crcShiftReversed_lt (c : Nat) (h : c < 2 ^ 32) :
    crcShiftReversed c < 2 ^ 32 := by
  unfold crcShiftReversed
  split
  · exact Nat.xor_lt_two_pow (by omega) (by decide)
  · omega

theorem repeat_crcShiftReversed_lt : ∀ (n c : Nat), c < 2 ^ 32 →
    Nat.repeat crcShiftReversed n c < 2 ^ 32 := by
  intro n
  induction n with
  | zero => intro c h; exact h
  | succ n ih => intro c h; exact crcShiftReversed_lt _ (ih c h)

theorem crcFold_inv : ∀ (bytes : List Nat) (ctx : Crc32Context),
    (∀ b ∈ bytes, b < 256) → ctx.crc < 2 ^ 32 → ctx.reversed = true →
    (crcFold ctx bytes).crc < 2 ^ 32 ∧ (crcFold ctx bytes).reversed = true ∧
      (crcFold ctx bytes).refout = ctx.refout := by
  intro bytes
  induction bytes with
  | nil => intro ctx hb hc hr; exact ⟨hc, hr, rfl⟩
  | cons b t ih =>
    intro ctx hb hc hr
    have hb0 : b < 256 := hb b (by simp)
    have hstep : (ctx.step b).crc < 2 ^ 32 ∧ (ctx.step b).reversed = true ∧
        (ctx.step b).refout = ctx.refout := by
      unfold Crc32Context.step
      rw [hr]
      refine ⟨?_, rfl, rfl⟩
      exact repeat_crcShiftReversed_lt 8 _
        (Nat.xor_lt_two_pow hc (by omega))
    have := ih (ctx.step b) (fun x hx => hb x (by simp [hx])) hstep.1 hstep.2.1
    exact ⟨this.1, this.2.1, this.2.2.trans hstep.2.2⟩

theorem crc_finalize_lt (ctx : Crc32Context) (h : ctx.crc < 2 ^ 32)
    (hro : ctx.refout = false) : ctx.finalize < 2 ^ 32 := by
  unfold Crc32Context.finalize
  rw [hro]
  simp only [Bool.false_eq_true, if_false]
  exact Nat.xor_lt_two_pow h (by norm_num)

/-- Reassembling the four transmitted CRC bytes with the receiver's
shift-and-or steps recovers the checksum. -/
theorem crc_assemble (C : Nat) (h : C < 2 ^ 32) :
    ((C / 2 ^ 24 % 256 * 2 ^ 24 ||| C / 2 ^ 16 % 256 * 2 ^ 16) |||
        C / 2 ^ 8 % 256 * 2 ^ 8) ||| C % 256 = C := by
  rw [Nat.or_assoc, Nat.or_assoc]
  have e0 : C / 2 ^ 8 % 256 * 2 ^ 8 ||| C % 256 =
      C / 2 ^ 8 % 256 * 2 ^ 8 + C % 256 := by
    rw [Nat.mul_comm]
    exact (Nat.mul_add_lt_is_or (by omega) _).symm
  rw [e0]
  have e1 : C / 2 ^ 16 % 256 * 2 ^ 16 ||| (C / 2 ^ 8 % 256 * 2 ^ 8 + C % 256) =
      C / 2 ^ 16 % 256 * 2 ^ 16 + (C / 2 ^ 8 % 256 * 2 ^ 8 + C % 256) := by
    rw [Nat.mul_comm]
    exact (Nat.mul_add_lt_is_or (by omega) _).symm
  rw [e1]
  have e2 : C / 2 ^ 24 % 256 * 2 ^ 24 |||
      (C / 2 ^ 16 % 256 * 2 ^ 16 + (C / 2 ^ 8 % 256 * 2 ^ 8 + C % 256)) =
      C / 2 ^ 24 % 256 * 2 ^ 24 +
        (C / 2 ^ 16 % 256 * 2 ^ 16 + (C / 2 ^ 8 % 256 * 2 ^ 8 + C % 256)) := by
    rw [Nat.mul_comm]
    exact (Nat.mul_add_lt_is_or (by omega) _).symm
  rw [e2]
  omega

/-! ## Reading back the payload buffer -/

theorem writeList_lower : ∀ (p : List Nat) (buf : Nat → Nat) (k j : Nat),
    j < k → writeList buf k p j = buf j := by
  intro p
  induction p with
  | nil => intro buf k j h; rfl
  | cons b t ih =>
    intro buf k j h
    unfold writeList
    rw [ih _ (k + 1) j (by omega)]
    simp [Nat.ne_of_lt h]

theorem writeList_at : ∀ (p : List Nat) (buf : Nat → Nat) (k j : Nat),
    j < p.length → writeList buf k p (k + j) = p.getD j 0 := by
  intro p
  induction p with
  | nil => intro buf k j h; simp at h
  | cons b t ih =>
    intro buf k j h
    cases j with
    | zero =>
      unfold writeList
      simp only [Nat.add_zero]
      rw [writeList_lower t _ (k + 1) k (by omega)]
      simp
    | succ j =>
      unfold writeList
      have : k + (j + 1) = (k + 1) + j := by omega
      rw [this, ih _ (k + 1) j (by simpa using h)]
      rfl

theorem range_map_writeList (p : List Nat) (buf : Nat → Nat) :
    (List.range p.length).map (writeList buf 0 p) = p := by
  apply List.ext_getElem (by simp)
  intro i h1 h2
  simp only [List.getElem_map, List.getElem_range]
  have := writeList_at p buf 0 i (by simpa using h2)
  rw [Nat.zero_add] at this
  rw [this]
  simp [List.getD_eq_getElem?_getD, List.getElem?_eq_getElem h2]

/-- With `offset = 0`, `mask = 0xFFFF` and `len = |p| ≤ 255`, the payload
bytes put on the wire are exactly `p`. -/
theorem wirePayload_eq : ∀ (k : Nat) (p : List Nat) (j : Nat),
    j + k = p.length → p.length ≤ 255 →
    wirePayload j 0xffff k p = p.drop j := by
  intro k
  induction k with
  | zero =>
    intro p j h1 h2
    unfold wirePayload
    rw [List.drop_eq_nil_of_le (by omega)]
  | succ k ih =>
    intro p j h1 h2
    unfold wirePayload
    have hj : j < p.length := by omega
    have hmask : (j + 1) &&& 0xffff = j + 1 := by
      have : (j + 1) &&& (2 ^ 16 - 1) = (j + 1) % 2 ^ 16 :=
        Nat.and_pow_two_sub_one_eq_mod (j + 1) 16
      rw [show (0xffff : Nat) = 2 ^ 16 - 1 from rfl, this]
      omega
    rw [hmask, ih p (j + 1) (by omega) h2,
      List.drop_eq_getElem_cons hj]
    simp [List.getD_eq_getElem?_getD, List.getElem?_eq_getElem hj]


/-- Folding the logical body bytes (`id_control`, length, payload) from
`ReceivingIdControl` for a non-transport id_control. -/
theorem body_fold (cfg : MinCfg) (now : Nat) (s : MinCtx) (idc : Nat) (pl : List Nat)
    (hstate : s.rx_frame_state = RxState.ReceivingIdControl)
    (hidc8 : ¬ idc &&& 0x80 = 0x80) (hlen : pl.length ≤ 255) :
    List.foldl (rx_state_step cfg now) s (idc :: pl.length :: pl) =
      { s with
        rx_frame_id_control := idc
        rx_frame_seq := 0
        rx_frame_length := 0
        rx_control := pl.length
        rx_frame_payload_bytes := pl.length
        rx_checksum := crcFold crcFresh (idc :: pl.length :: pl)
        rx_frame_payload_buf := writeList s.rx_frame_payload_buf 0 pl
        rx_frame_state := RxState.ReceivingChecksum3 } := by
  rw [List.foldl_cons, List.foldl_cons]
  have e_id : rx_state_step cfg now s idc =
      { s with
        rx_frame_id_control := idc
        rx_frame_payload_bytes := 0
        rx_checksum := crcFresh.step idc
        rx_frame_seq := 0
        rx_frame_state := RxState.ReceivingLength } := by
    simp only [rx_state_step, hstate, if_neg hidc8]
  rw [e_id]
  cases pl with
  | nil =>
    simp only [List.length_nil, List.foldl_nil]
    simp only [rx_state_step]
    norm_num
    exact ⟨rfl, rfl⟩
  | cons b0 pt =>
    have hpos : 0 < (b0 :: pt).length := by simp
    have e_len : rx_state_step cfg now
        { s with
          rx_frame_id_control := idc
          rx_frame_payload_bytes := 0
          rx_checksum := crcFresh.step idc
          rx_frame_seq := 0
          rx_frame_state := RxState.ReceivingLength } ((b0 :: pt).length) =
        { s with
          rx_frame_id_control := idc
          rx_frame_payload_bytes := 0
          rx_checksum := (crcFresh.step idc).step (b0 :: pt).length
          rx_frame_seq := 0
          rx_frame_length := (b0 :: pt).length
          rx_control := (b0 :: pt).length
          rx_frame_state := RxState.ReceivingPayload } := by
      simp only [rx_state_step, MAX_PAYLOAD]
      rw [if_pos hpos, if_pos hlen]
    rw [e_len, payload_phase cfg now (b0 :: pt) _ rfl rfl (by simp) (by simpa using hlen)]
    simp only [Nat.zero_add]
    rfl

/-- `valid_frame_received` on a non-transport frame only enqueues the
message. -/
theorem vfr_app_msg_queue (cfg : MinCfg) (now : Nat) (s : MinCtx)
    (h80 : ¬ s.rx_frame_id_control &&& 0x80 = 0x80) :
    (valid_frame_received cfg now s).msg_queue = s.msg_queue ++
      [Msg.new (s.rx_frame_id_control &&& 0x3f) s.rx_frame_payload_buf
        s.rx_control cfg.port] := by
  have hA : ¬ s.rx_frame_id_control = ACK := fun he => h80 (by rw [he]; decide)
  have hR : ¬ s.rx_frame_id_control = RESET := fun he => h80 (by rw [he]; decide)
  unfold valid_frame_received
  by_cases ht : cfg.t_min = true
  · simp only [if_pos ht, if_neg hA, if_neg hR, if_neg h80]
    rfl
  · simp only [if_neg ht]
    rfl



/-- The four CRC bytes: assembled big-endian and compared against the
computed CRC; on a match the machine proceeds to `ReceivingEof`. -/
theorem checksum_fold (cfg : MinCfg) (now : Nat) (S : MinCtx) (C : Nat)
    (hstate : S.rx_frame_state = RxState.ReceivingChecksum3)
    (hfin : S.rx_checksum.finalize = C)
    (hC : C < 2 ^ 32) :
    List.foldl (rx_state_step cfg now) S (crcBytes C) =
      { S with rx_frame_checksum := C, rx_frame_state := RxState.ReceivingEof } := by
  simp only [crcBytes, List.foldl_cons, List.foldl_nil]
  have e3 : rx_state_step cfg now S (C / 2 ^ 24 % 256) =
      { S with rx_frame_checksum := C / 2 ^ 24 % 256 * 2 ^ 24
               rx_frame_state := RxState.ReceivingChecksum2 } := by
    simp only [rx_state_step, hstate]
  rw [e3]
  have e2 : rx_state_step cfg now
      { S with rx_frame_checksum := C / 2 ^ 24 % 256 * 2 ^ 24
               rx_frame_state := RxState.ReceivingChecksum2 } (C / 2 ^ 16 % 256) =
      { S with rx_frame_checksum := C / 2 ^ 24 % 256 * 2 ^ 24 ||| C / 2 ^ 16 % 256 * 2 ^ 16
               rx_frame_state := RxState.ReceivingChecksum1 } := by
    simp only [rx_state_step]
  rw [e2]
  have e1 : rx_state_step cfg now
      { S with rx_frame_checksum := C / 2 ^ 24 % 256 * 2 ^ 24 ||| C / 2 ^ 16 % 256 * 2 ^ 16
               rx_frame_state := RxState.ReceivingChecksum1 } (C / 2 ^ 8 % 256) =
      { S with rx_frame_checksum :=
                 (C / 2 ^ 24 % 256 * 2 ^ 24 ||| C / 2 ^ 16 % 256 * 2 ^ 16) |||
                   C / 2 ^ 8 % 256 * 2 ^ 8
               rx_frame_state := RxState.ReceivingChecksum0 } := by
    simp only [rx_state_step]
  rw [e1]
  have hasm : ((C / 2 ^ 24 % 256 * 2 ^ 24 ||| C / 2 ^ 16 % 256 * 2 ^ 16) |||
      C / 2 ^ 8 % 256 * 2 ^ 8) ||| C % 256 = C := crc_assemble C hC
  simp only [rx_state_step, hasm, hfin]
  rw [if_neg (by simp)]

/-- The EOF byte triggers `valid_frame_received`. -/
theorem eof_deliver (cfg : MinCfg) (now : Nat) (S : MinCtx) (h' : Nat)
    (hne : h' ≠ 2) (hstate : S.rx_frame_state = RxState.ReceivingEof) :
    (rx_byte cfg now (withHs S h') EOF_BYTE).msg_queue =
      (valid_frame_received cfg now S).msg_queue := by
  rw [rx_byte_body_step cfg now S EOF_BYTE h' hne (by decide), withHs_msg_queue]
  simp only [rx_state_step, hstate, if_pos rfl, if_true]

/-- Receiving a complete well-formed non-transport frame from
`ReceivingIdControl`: the stuffed body, CRC and EOF are consumed and exactly
one message — carrying `id_control & 0x3F` and the payload — is appended to
the delivery queue. -/
theorem frame_deliver (cfg : MinCfg) (now : Nat) (s : MinCtx) (idc : Nat)
    (pl : List Nat)
    (hstate : s.rx_frame_state = RxState.ReceivingIdControl)
    (hhs : s.rx_header_bytes_seen = 0)
    (hidc8 : ¬ idc &&& 0x80 = 0x80)
    (hidc : idc < 256)
    (hpl : ∀ b ∈ pl, b < 256)
    (hlen : pl.length ≤ 255) :
    (List.foldl (rx_byte cfg now) s
        (stuffed 2 ((idc :: pl.length :: pl) ++
            crcBytes ((crcFold crcFresh (idc :: pl.length :: pl)).finalize)) ++
          [EOF_BYTE])).msg_queue =
      s.msg_queue ++ [Msg.mk (idc &&& 0x3f) pl.length pl cfg.port] := by
  have hbytes : ∀ b ∈ idc :: pl.length :: pl, b < 256 := by
    intro b hb
    simp only [List.mem_cons] at hb
    rcases hb with rfl | rfl | hb
    · exact hidc
    · omega
    · exact hpl _ hb
  have hcrc := crcFold_inv (idc :: pl.length :: pl) crcFresh hbytes (by decide) rfl
  have hC : (crcFold crcFresh (idc :: pl.length :: pl)).finalize < 2 ^ 32 :=
    crc_finalize_lt _ hcrc.1 (hcrc.2.2.trans rfl)
  have hs0 : withHs s 0 = s := by rw [← hhs]; exact withHs_self s
  have hstuff : List.foldl (rx_byte cfg now) s
      (stuffed 2 ((idc :: pl.length :: pl) ++
        crcBytes ((crcFold crcFresh (idc :: pl.length :: pl)).finalize))) =
      withHs (List.foldl (rx_state_step cfg now) s
          ((idc :: pl.length :: pl) ++
            crcBytes ((crcFold crcFresh (idc :: pl.length :: pl)).finalize)))
        (2 - cdFold 2 ((idc :: pl.length :: pl) ++
          crcBytes ((crcFold crcFresh (idc :: pl.length :: pl)).finalize))) := by
    rw [← hs0]
    exact rx_stuffed_fold cfg now _ 2 (withHs s 0) (Or.inr rfl)
  have hfold : List.foldl (rx_state_step cfg now) s
      ((idc :: pl.length :: pl) ++
        crcBytes ((crcFold crcFresh (idc :: pl.length :: pl)).finalize)) =
      { s with
        rx_frame_id_control := idc
        rx_frame_seq := 0
        rx_frame_length := 0
        rx_control := pl.length
        rx_frame_payload_bytes := pl.length
        rx_checksum := crcFold crcFresh (idc :: pl.length :: pl)
        rx_frame_payload_buf := writeList s.rx_frame_payload_buf 0 pl
        rx_frame_state := RxState.ReceivingEof
        rx_frame_checksum := (crcFold crcFresh (idc :: pl.length :: pl)).finalize } := by
    rw [List.foldl_append, body_fold cfg now s idc pl hstate hidc8 hlen]
    exact checksum_fold cfg now _ _ rfl rfl hC
  have hne : (2 - cdFold 2 ((idc :: pl.length :: pl) ++
      crcBytes ((crcFold crcFresh (idc :: pl.length :: pl)).finalize))) ≠ 2 := by
    rcases cdFold_mem ((idc :: pl.length :: pl) ++
        crcBytes ((crcFold crcFresh (idc :: pl.length :: pl)).finalize)) 2
        (Or.inr rfl) with h | h <;> rw [h] <;> decide
  rw [List.foldl_append, hstuff, List.foldl_cons, List.foldl_nil,
    eof_deliver cfg now _ _ hne (by rw [hfold]),
    vfr_app_msg_queue cfg now _ (by rw [hfold]; exact hidc8), hfold]
  simp only [Msg.new]
  rw [range_map_writeList pl s.rx_frame_payload_buf]


/-! ## Resynchronisation on the triple-0xAA marker -/

theorem rx_state_step_hs (cfg : MinCfg) (now : Nat) (s : MinCtx) (b : Nat) :
    (rx_state_step cfg now s b).rx_header_bytes_seen = s.rx_header_bytes_seen := by
  have h := rx_state_step_withHs cfg now s b s.rx_header_bytes_seen
  rw [withHs_self] at h
  conv_lhs => rw [h]
  exact withHs_hs _ _

theorem rx_state_step_msg_ne (cfg : MinCfg) (now : Nat) (s : MinCtx) (b : Nat)
    (hb : b ≠ EOF_BYTE) :
    (rx_state_step cfg now s b).msg_queue = s.msg_queue := by
  cases hst : s.rx_frame_state <;>
    simp only [rx_state_step, hst] <;>
    first
      | rfl
      | (split_ifs <;> rfl)
      | (rw [if_neg hb])

theorem rx_byte_hs_zero (cfg : MinCfg) (now : Nat) (s : MinCtx) (b : Nat)
    (hb : b ≠ HEADER_BYTE) :
    (rx_byte cfg now s b).rx_header_bytes_seen = 0 := by
  have hb170 : ¬ b = 170 := hb
  unfold rx_byte
  by_cases h5 : b = 85 <;> by_cases h2 : s.rx_header_bytes_seen = 2 <;>
    simp [h2, h5, hb170, rx_state_step_hs, STUFF_BYTE, HEADER_BYTE]

theorem rx_byte_msg_ne (cfg : MinCfg) (now : Nat) (s : MinCtx) (b : Nat)
    (hb : b ≠ EOF_BYTE) :
    (rx_byte cfg now s b).msg_queue = s.msg_queue := by
  have hb' : ¬ b = 85 := hb
  unfold rx_byte
  by_cases h2 : s.rx_header_bytes_seen = 2 <;> by_cases hh : b = 170 <;>
    simp [h2, hh, hb', rx_state_step_msg_ne, HEADER_BYTE, STUFF_BYTE, EOF_BYTE]

/-- Any byte list not ending in `0xAA` leaves the header counter at zero. -/
theorem foldl_rx_byte_hs_zero (cfg : MinCfg) (now : Nat) (bytes : List Nat)
    (s : MinCtx) (hlast : bytes.getLast? ≠ some HEADER_BYTE)
    (hhs : s.rx_header_bytes_seen = 0) :
    (List.foldl (rx_byte cfg now) s bytes).rx_header_bytes_seen = 0 := by
  rcases List.eq_nil_or_concat bytes with rfl | ⟨l, b, rfl⟩
  · exact hhs
  · rw [List.concat_eq_append] at hlast ⊢
    rw [List.foldl_append, List.foldl_cons, List.foldl_nil]
    refine rx_byte_hs_zero cfg now _ b ?_
    intro hb
    exact hlast (by rw [hb, List.getLast?_concat])

/-- Three `0xAA` bytes from any state with no pending header bytes: the
machine resynchronises to `ReceivingIdControl` with an unchanged delivery
queue. -/
theorem sof_resync (cfg : MinCfg) (now : Nat) (s : MinCtx)
    (hhs : s.rx_header_bytes_seen = 0) :
    ∃ X : MinCtx,
      List.foldl (rx_byte cfg now) s [HEADER_BYTE, HEADER_BYTE, HEADER_BYTE] =
        withHs { X with rx_frame_state := RxState.ReceivingIdControl } 0 ∧
      X.msg_queue = s.msg_queue := by
  refine ⟨rx_state_step cfg now (rx_state_step cfg now s HEADER_BYTE) HEADER_BYTE,
    ?_, ?_⟩
  · have e1 : rx_byte cfg now s HEADER_BYTE =
        withHs (rx_state_step cfg now s HEADER_BYTE) 1 := by
      conv_lhs => rw [show s = withHs s 0 from by rw [← hhs]; exact (withHs_self s).symm]
      rw [rx_byte_aa_step cfg now s 0 (by decide) (by decide)]
    have e2 : rx_byte cfg now (withHs (rx_state_step cfg now s HEADER_BYTE) 1)
        HEADER_BYTE =
        withHs (rx_state_step cfg now (rx_state_step cfg now s HEADER_BYTE)
          HEADER_BYTE) 2 := by
      have h := rx_byte_aa_step cfg now (rx_state_step cfg now s HEADER_BYTE) 1
        (by decide) (by decide)
      norm_num at h
      exact h
    simp only [List.foldl_cons, List.foldl_nil]
    rw [e1, e2, rx_byte_aa_at2]
  · rw [rx_state_step_msg_ne cfg now _ _ (by decide),
      rx_state_step_msg_ne cfg now _ _ (by decide)]

/-- The wire image of a non-transport frame with `offset = 0`,
`mask = 0xFFFF`, `len = |p|`. -/
theorem on_wire_bytes_app (idc : Nat) (p : List Nat)
    (hidc8 : ¬ idc &&& 0x80 = 0x80) (hlen : p.length ≤ 255) :
    on_wire_bytes idc 0 p 0 0xffff p.length =
      HEADER_BYTE :: HEADER_BYTE :: HEADER_BYTE ::
        (stuffed 2 ((idc :: p.length :: p) ++
            crcBytes ((crcFold crcFresh (idc :: p.length :: p)).finalize)) ++
          [EOF_BYTE]) := by
  unfold on_wire_bytes frameBody
  rw [if_neg hidc8, wirePayload_eq p.length p 0 (by omega) hlen, List.drop_zero]
  simp


/-! ## Claim C1 -/

/-- C1 (amended): for payloads `p` with `|p| ≤ 255` and ids with
`id & 0xC0 == 0` (i.e. `id < 64`; the claim's `id & 0x80 == 0` is refuted by
`c1_mask_counterexample` since `send_frame` masks with `0x3F`), feeding the
byte stream produced by `send_frame(id, p, |p|)` into `poll` of a fresh
context yields exactly one delivered message whose id is `id` and whose
payload is `p`. -/
theorem c1_roundtrip (id : Nat) (p : List Nat)
    (portS portR txsS txsR nowR t0S t0R : Nat)
    (hid : id < 64) (hp : ∀ b ∈ p, b < 256) (hlen : p.length ≤ 255)
    (hsp : p.length + 11 ≤ txsS) :
    (poll ⟨false, portR, txsR⟩ nowR (Context.new t0R)
        ((send_frame ⟨false, portS, txsS⟩ (Context.new t0S) id p p.length).1.output)).msg_queue
      = [Msg.mk id p.length p portR] := by
  have hmask : id &&& 0x3f = id := (by decide : ∀ i, i < 64 → i &&& 0x3f = i) id hid
  have hidc8 : ¬ id &&& 0x80 = 0x80 :=
    (by decide : ∀ i, i < 64 → ¬ i &&& 0x80 = 0x80) id hid
  have hout : (send_frame ⟨false, portS, txsS⟩ (Context.new t0S) id p p.length).1.output
      = on_wire_bytes id 0 p 0 0xffff p.length := by
    have hsp' : on_wire_size p.length ≤ (⟨false, portS, txsS⟩ : MinCfg).txSpace := hsp
    simp [send_frame, emit_frame, if_pos hsp', hmask, Context.new]
  rw [hout, on_wire_bytes_app id p hidc8 hlen]
  show (List.foldl (rx_byte ⟨false, portR, txsR⟩ nowR) (Context.new t0R) _).msg_queue = _
  rw [show (HEADER_BYTE :: HEADER_BYTE :: HEADER_BYTE ::
      (stuffed 2 ((id :: p.length :: p) ++
          crcBytes ((crcFold crcFresh (id :: p.length :: p)).finalize)) ++
        [EOF_BYTE]) : List Nat) =
    [HEADER_BYTE, HEADER_BYTE, HEADER_BYTE] ++
      (stuffed 2 ((id :: p.length :: p) ++
          crcBytes ((crcFold crcFresh (id :: p.length :: p)).finalize)) ++
        [EOF_BYTE]) from rfl, List.foldl_append]
  obtain ⟨X, hX, hXq⟩ := sof_resync ⟨false, portR, txsR⟩ nowR (Context.new t0R) rfl
  rw [hX, frame_deliver ⟨false, portR, txsR⟩ nowR _ id p rfl rfl hidc8
    (by omega) hp hlen]
  simp only [withHs_msg_queue]
  show X.msg_queue ++ [Msg.mk (id &&& 0x3f) p.length p portR] = _
  rw [hXq, hmask]
  rfl

/-- Witness for C1: id 5, payload `[1, 2]` round-trips through sender output
and a fresh receiver. -/
theorem c1_roundtrip_witness :
    (poll ⟨false, 7, 1000⟩ 0 (Context.new 0)
        ((send_frame ⟨false, 9, 1000⟩ (Context.new 0) 5 [1, 2] 2).1.output)).msg_queue
      = [Msg.mk 5 2 [1, 2] 7] :=
  c1_roundtrip 5 [1, 2] 9 7 1000 1000 0 0 0 (by decide) (by decide) (by decide)
    (by decide)

/-- C1 counterexample: id 64 satisfies `id & 0x80 == 0`, but `send_frame`
masks the id with `0x3F`, so the delivered message carries id 0, not 64. -/
theorem c1_mask_counterexample :
    (64 : Nat) &&& 0x80 = 0 ∧
    (poll ⟨false, 7, 1000⟩ 0 (Context.new 0)
        ((send_frame ⟨false, 7, 1000⟩ (Context.new 0) 64 [] 0).1.output)).msg_queue
      = [Msg.mk 0 0 [] 7] ∧
    ¬ (poll ⟨false, 7, 1000⟩ 0 (Context.new 0)
        ((send_frame ⟨false, 7, 1000⟩ (Context.new 0) 64 [] 0).1.output)).msg_queue
      = [Msg.mk 64 0 [] 7] :=
  ⟨by decide, by decide, by decide⟩

/-! ## Claim C6 -/

/-- C6 (amended): for any noise `X` that does not end in `0xAA` (the claim's
"any byte sequence" is refuted by `c6_noise_counterexample`: a trailing
`0xAA` merges with the frame's start marker and the frame is lost), feeding
`X ++ encode(f)` into a fresh context's poll delivers `f`'s message on top
of whatever `X` alone delivers. -/
theorem c6_resync_after_noise (X : List Nat) (idc : Nat) (p : List Nat)
    (port txs now t0 : Nat)
    (hX : ¬ X.getLast? = some 0xaa)
    (hidc : idc < 64) (hp : ∀ b ∈ p, b < 256) (hlen : p.length ≤ 255) :
    (poll ⟨false, port, txs⟩ now (Context.new t0)
        (X ++ on_wire_bytes idc 0 p 0 0xffff p.length)).msg_queue
      = (poll ⟨false, port, txs⟩ now (Context.new t0) X).msg_queue
        ++ [Msg.mk idc p.length p port] := by
  have hmask : idc &&& 0x3f = idc := (by decide : ∀ i, i < 64 → i &&& 0x3f = i) idc hidc
  have hidc8 : ¬ idc &&& 0x80 = 0x80 :=
    (by decide : ∀ i, i < 64 → ¬ i &&& 0x80 = 0x80) idc hidc
  show (List.foldl (rx_byte ⟨false, port, txs⟩ now) (Context.new t0) _).msg_queue = _
  rw [on_wire_bytes_app idc p hidc8 hlen, List.foldl_append]
  have hhsX : (List.foldl (rx_byte ⟨false, port, txs⟩ now) (Context.new t0)
      X).rx_header_bytes_seen = 0 :=
    foldl_rx_byte_hs_zero _ now X _ hX rfl
  rw [show (HEADER_BYTE :: HEADER_BYTE :: HEADER_BYTE ::
      (stuffed 2 ((idc :: p.length :: p) ++
          crcBytes ((crcFold crcFresh (idc :: p.length :: p)).finalize)) ++
        [EOF_BYTE]) : List Nat) =
    [HEADER_BYTE, HEADER_BYTE, HEADER_BYTE] ++
      (stuffed 2 ((idc :: p.length :: p) ++
          crcBytes ((crcFold crcFresh (idc :: p.length :: p)).finalize)) ++
        [EOF_BYTE]) from rfl, List.foldl_append]
  obtain ⟨Y, hY, hYq⟩ := sof_resync ⟨false, port, txs⟩ now _ hhsX
  rw [hY, frame_deliver ⟨false, port, txs⟩ now _ idc p rfl rfl hidc8
    (by omega) hp hlen]
  simp only [withHs_msg_queue]
  show Y.msg_queue ++ [Msg.mk (idc &&& 0x3f) p.length p port] = _
  rw [hYq, hmask]
  rfl

/-- Witness for C6: noise `[3, 0]` followed by the frame with id 2,
payload `[7]`. -/
theorem c6_resync_after_noise_witness :
    (poll ⟨false, 7, 1000⟩ 0 (Context.new 0)
        ([3, 0] ++ on_wire_bytes 2 0 [7] 0 0xffff 1)).msg_queue
      = (poll ⟨false, 7, 1000⟩ 0 (Context.new 0) [3, 0]).msg_queue
        ++ [Msg.mk 2 1 [7] 7] :=
  c6_resync_after_noise [3, 0] 2 [7] 7 1000 0 0 (by decide) (by decide)
    (by decide) (by decide)

/-- C6 counterexample: with noise `X = [0xAA]` the frame with id 1 and empty
payload is NOT delivered — its start marker merges with the stray `0xAA`
and the id_control byte is misread — while without the noise it is. -/
theorem c6_noise_counterexample :
    (poll ⟨false, 7, 1000⟩ 0 (Context.new 0)
        ([0xaa] ++ on_wire_bytes 1 0 [] 0 0xffff 0)).msg_queue = [] ∧
    (poll ⟨false, 7, 1000⟩ 0 (Context.new 0)
        (on_wire_bytes 1 0 [] 0 0xffff 0)).msg_queue = [Msg.mk 1 0 [] 7] :=
  ⟨by decide, by decide⟩


/-! ## Panic freedom of the receive path (claim C7) -/

theorem tffs_empty (cfg : MinCfg) (now : Nat) (s : MinCtx) (idx : Nat) (u : Bool)
    (h : s.transport.frames = []) :
    transport_fifo_frame_send cfg now s idx u =
      { s with transport := { s.transport with last_received_anything_ms := now } } := by
  unfold transport_fifo_frame_send
  simp [h]

theorem foldl_tffs_empty (cfg : MinCfg) (now : Nat) :
    ∀ (l : List Nat) (s : MinCtx), s.transport.frames = [] →
      l.foldl (fun acc i => transport_fifo_frame_send cfg now acc i false) s = s ∨
      l.foldl (fun acc i => transport_fifo_frame_send cfg now acc i false) s =
        { s with transport :=
            { s.transport with last_received_anything_ms := now } } := by
  intro l
  induction l with
  | nil => intro s _; exact Or.inl rfl
  | cons a t ih =>
    intro s h
    rw [List.foldl_cons, tffs_empty cfg now s a false h]
    rcases ih { s with transport :=
        { s.transport with last_received_anything_ms := now } } h with h1 | h1
    · exact Or.inr h1
    · right
      rw [h1]

theorem on_wire_t_frame_rx (cfg : MinCfg) (s : MinCtx) (id seq : Nat)
    (p : List Nat) (len : Nat) :
    (on_wire_t_frame cfg s id seq p len).1.rx_control = s.rx_control ∧
    (on_wire_t_frame cfg s id seq p len).1.rx_frame_seq = s.rx_frame_seq ∧
    (on_wire_t_frame cfg s id seq p len).1.rx_frame_state = s.rx_frame_state ∧
    (on_wire_t_frame cfg s id seq p len).1.rx_frame_length = s.rx_frame_length ∧
    (on_wire_t_frame cfg s id seq p len).1.rx_frame_payload_bytes =
      s.rx_frame_payload_bytes := by
  unfold on_wire_t_frame emit_frame
  split <;> exact ⟨rfl, rfl, rfl, rfl, rfl⟩

theorem foldl_tffs_empty_fields (cfg : MinCfg) (now : Nat) (l : List Nat)
    (S : MinCtx) (h : S.transport.frames = []) :
    (l.foldl (fun acc i => transport_fifo_frame_send cfg now acc i false)
        S).rx_control = S.rx_control ∧
    (l.foldl (fun acc i => transport_fifo_frame_send cfg now acc i false)
        S).rx_frame_seq = S.rx_frame_seq ∧
    (l.foldl (fun acc i => transport_fifo_frame_send cfg now acc i false)
        S).rx_frame_state = S.rx_frame_state ∧
    (l.foldl (fun acc i => transport_fifo_frame_send cfg now acc i false)
        S).rx_frame_length = S.rx_frame_length ∧
    (l.foldl (fun acc i => transport_fifo_frame_send cfg now acc i false)
        S).rx_frame_payload_bytes = S.rx_frame_payload_bytes ∧
    (l.foldl (fun acc i => transport_fifo_frame_send cfg now acc i false)
        S).transport.sn_min = S.transport.sn_min ∧
    (l.foldl (fun acc i => transport_fifo_frame_send cfg now acc i false)
        S).transport.sn_max = S.transport.sn_max ∧
    (l.foldl (fun acc i => transport_fifo_frame_send cfg now acc i false)
        S).transport.n_frames = S.transport.n_frames ∧
    (l.foldl (fun acc i => transport_fifo_frame_send cfg now acc i false)
        S).transport.frames = [] := by
  rcases foldl_tffs_empty cfg now l S h with hE | hE <;> rw [hE] <;>
    exact ⟨rfl, rfl, rfl, rfl, rfl, rfl, rfl, rfl, h⟩


/-- On an empty transport window, `valid_frame_received` never trips a panic
guard, keeps the window empty, and leaves the receive-machine registers
untouched. -/
theorem vfr_inv (cfg : MinCfg) (now : Nat) (s : MinCtx)
    (hctrl : s.rx_control ≤ 255) (hseq : s.rx_frame_seq < 256)
    (hmin : s.transport.sn_min = 0) (hmax : s.transport.sn_max = 0)
    (hn : s.transport.n_frames = 0) (hfr : s.transport.frames = []) :
    vfr_guards cfg s = true ∧
    (valid_frame_received cfg now s).rx_control = s.rx_control ∧
    (valid_frame_received cfg now s).rx_frame_seq = s.rx_frame_seq ∧
    (valid_frame_received cfg now s).rx_frame_state = s.rx_frame_state ∧
    (valid_frame_received cfg now s).rx_frame_length = s.rx_frame_length ∧
    (valid_frame_received cfg now s).rx_frame_payload_bytes =
      s.rx_frame_payload_bytes ∧
    (valid_frame_received cfg now s).transport.sn_min = 0 ∧
    (valid_frame_received cfg now s).transport.sn_max = 0 ∧
    (valid_frame_received cfg now s).transport.n_frames = 0 ∧
    (valid_frame_received cfg now s).transport.frames = [] := by
  cases hT : cfg.t_min with
  | false =>
    have hv : valid_frame_received cfg now s = msg_enqueue cfg s := by
      unfold valid_frame_received; rw [hT]; rfl
    have hg : vfr_guards cfg s = true := by
      unfold vfr_guards; rw [hT]
      exact decide_eq_true hctrl
    rw [hv]
    exact ⟨hg, rfl, rfl, rfl, rfl, rfl, hmin, hmax, hn, hfr⟩
  | true =>
    by_cases hack : s.rx_frame_id_control = ACK
    · have hna : wrap8sub s.rx_frame_seq 0 = s.rx_frame_seq := by
        unfold wrap8sub; omega
      have hw00 : wrap8sub 0 0 = 0 := by decide
      simp only [valid_frame_received, vfr_guards, hT, if_true, hack, if_pos rfl,
        hmin, hmax, hn, hna, hw00]
      refine ⟨Bool.not_or_self _, ?_⟩
      by_cases hle : s.rx_frame_seq ≤ 0
      · have h0 : s.rx_frame_seq = 0 := Nat.le_zero.mp hle
        simp only [if_pos hle]
        simp only [h0]
        exact ⟨(foldl_tffs_empty_fields cfg now _ _ (by exact hfr)).1,
          (foldl_tffs_empty_fields cfg now _ _ (by exact hfr)).2.1,
          (foldl_tffs_empty_fields cfg now _ _ (by exact hfr)).2.2.1,
          (foldl_tffs_empty_fields cfg now _ _ (by exact hfr)).2.2.2.1,
          (foldl_tffs_empty_fields cfg now _ _ (by exact hfr)).2.2.2.2.1,
          (foldl_tffs_empty_fields cfg now _ _ (by exact hfr)).2.2.2.2.2.1,
          (foldl_tffs_empty_fields cfg now _ _ (by exact hfr)).2.2.2.2.2.2.1,
          (foldl_tffs_empty_fields cfg now _ _ (by exact hfr)).2.2.2.2.2.2.2.1,
          (foldl_tffs_empty_fields cfg now _ _ (by exact hfr)).2.2.2.2.2.2.2.2⟩
      · simp only [if_neg hle]
        simp [hfr]
    · simp only [valid_frame_received, vfr_guards, hT, if_true]
      simp only [if_neg hack]
      by_cases hres : s.rx_frame_id_control = RESET
      · simp only [if_pos hres]
        simp [Transport.reset_transport_fifo]
      · simp only [if_neg hres]
        by_cases h80 : s.rx_frame_id_control &&& 0x80 = 0x80
        · simp only [if_pos h80]
          by_cases hrn : s.rx_frame_seq = s.transport.rn
          · simp only [if_pos hrn]
            simp [msg_enqueue, send_ack, on_wire_t_frame_transport, on_wire_t_frame_rx,
              hmin, hmax, hn, hfr, MAX_PAYLOAD, hctrl]
          · simp only [if_neg hrn]
            simp [hmin, hmax, hn, hfr, MAX_PAYLOAD, hctrl]
        · simp only [if_neg h80]
          simp [msg_enqueue, hmin, hmax, hn, hfr, MAX_PAYLOAD, hctrl]


/-- One `rx_frame_state` step on a byte in `u8` range, from a state
satisfying `rx_core`, passes its panic guards and preserves `rx_core`. -/
theorem rx_state_step_core (cfg : MinCfg) (now : Nat) (s : MinCtx) (b : Nat)
    (hb : b < 256) (h : rx_core s) :
    rx_step_guards cfg s b = true ∧ rx_core (rx_state_step cfg now s b) := by
  obtain ⟨hctrl, hseq, hpay, hpb, hmin, hmax, hn, hfr⟩ := h
  cases hst : s.rx_frame_state with
  | SearchingForSof =>
    simp only [rx_step_guards, rx_state_step, hst]
    exact ⟨trivial, hctrl, hseq, hpay, hpb, hmin, hmax, hn, hfr⟩
  | ReceivingIdControl =>
    simp only [rx_step_guards, rx_state_step, hst]
    refine ⟨trivial, ?_⟩
    split
    · split
      · refine ⟨hctrl, hseq, ?_, ?_, hmin, hmax, hn, hfr⟩
        · intro hx; exact nomatch hx
        · intro _; rfl
      · refine ⟨hctrl, hseq, ?_, ?_, hmin, hmax, hn, hfr⟩
        · intro hx; exact nomatch hx
        · intro _; rfl
    · refine ⟨hctrl, by show (0:Nat) < 256; decide, ?_, ?_, hmin, hmax, hn, hfr⟩
      · intro hx; exact nomatch hx
      · intro _; rfl
  | ReceivingSeq =>
    simp only [rx_step_guards, rx_state_step, hst]
    refine ⟨trivial, hctrl, hb, ?_, ?_, hmin, hmax, hn, hfr⟩
    · intro hx; exact nomatch hx
    · intro _; exact hpb (Or.inl hst)
  | ReceivingLength =>
    simp only [rx_step_guards, rx_state_step, hst]
    refine ⟨trivial, ?_⟩
    have hpb0 : s.rx_frame_payload_bytes = 0 := hpb (Or.inr hst)
    by_cases hpos : 0 < b
    · simp only [if_pos hpos]
      by_cases hle : b ≤ MAX_PAYLOAD
      · have hle255 : b ≤ 255 := hle
        simp only [if_pos hle]
        refine ⟨hle255, hseq, ?_, ?_, hmin, hmax, hn, hfr⟩
        · intro _
          refine ⟨hpos, ?_⟩
          show s.rx_frame_payload_bytes + b ≤ 255
          omega
        · intro hx; rcases hx with hC | hC <;> exact nomatch hC
      · simp only [if_neg hle]
        have hble : b ≤ 255 := by omega
        refine ⟨hble, hseq, ?_, ?_, hmin, hmax, hn, hfr⟩
        · intro hx; exact nomatch hx
        · intro _; exact hpb0
    · simp only [if_neg hpos]
      have hble : b ≤ 255 := by omega
      refine ⟨hble, hseq, ?_, ?_, hmin, hmax, hn, hfr⟩
      · intro hx; exact nomatch hx
      · intro _; exact hpb0
  | ReceivingPayload =>
    obtain ⟨h1, h2⟩ := hpay hst
    simp only [rx_step_guards, rx_state_step, hst]
    constructor
    · have hlt : s.rx_frame_payload_bytes < MAX_PAYLOAD := by
        have hlt255 : s.rx_frame_payload_bytes < 255 := by omega
        exact hlt255
      rw [decide_eq_true hlt, decide_eq_true h1]
      rfl
    · by_cases hz : wrap8sub s.rx_frame_length 1 = 0
      · simp only [if_pos hz]
        refine ⟨hctrl, hseq, ?_, ?_, hmin, hmax, hn, hfr⟩
        · intro hx; exact nomatch hx
        · intro hx; rcases hx with hC | hC <;> exact nomatch hC
      · simp only [if_neg hz]
        have hw1 : wrap8add s.rx_frame_payload_bytes 1 =
            s.rx_frame_payload_bytes + 1 := by
          unfold wrap8add; omega
        have hw2 : wrap8sub s.rx_frame_length 1 = s.rx_frame_length - 1 := by
          unfold wrap8sub; omega
        refine ⟨hctrl, hseq, ?_, ?_, hmin, hmax, hn, hfr⟩
        · intro _
          constructor
          · show 1 ≤ wrap8sub s.rx_frame_length 1
            rw [hw2] at hz ⊢
            omega
          · show wrap8add s.rx_frame_payload_bytes 1 +
                wrap8sub s.rx_frame_length 1 ≤ 255
            rw [hw1, hw2]
            omega
        · intro hx; rcases hx with hC | hC <;> exact nomatch hC
  | ReceivingChecksum3 =>
    simp only [rx_step_guards, rx_state_step, hst]
    refine ⟨trivial, hctrl, hseq, ?_, ?_, hmin, hmax, hn, hfr⟩
    · intro hx; exact nomatch hx
    · intro hx; rcases hx with hC | hC <;> exact nomatch hC
  | ReceivingChecksum2 =>
    simp only [rx_step_guards, rx_state_step, hst]
    refine ⟨trivial, hctrl, hseq, ?_, ?_, hmin, hmax, hn, hfr⟩
    · intro hx; exact nomatch hx
    · intro hx; rcases hx with hC | hC <;> exact nomatch hC
  | ReceivingChecksum1 =>
    simp only [rx_step_guards, rx_state_step, hst]
    refine ⟨trivial, hctrl, hseq, ?_, ?_, hmin, hmax, hn, hfr⟩
    · intro hx; exact nomatch hx
    · intro hx; rcases hx with hC | hC <;> exact nomatch hC
  | ReceivingChecksum0 =>
    simp only [rx_step_guards, rx_state_step, hst]
    refine ⟨trivial, ?_⟩
    split
    · refine ⟨hctrl, hseq, ?_, ?_, hmin, hmax, hn, hfr⟩
      · intro hx; exact nomatch hx
      · intro hx; rcases hx with hC | hC <;> exact nomatch hC
    · refine ⟨hctrl, hseq, ?_, ?_, hmin, hmax, hn, hfr⟩
      · intro hx; exact nomatch hx
      · intro hx; rcases hx with hC | hC <;> exact nomatch hC
  | ReceivingEof =>
    simp only [rx_step_guards, rx_state_step, hst]
    obtain ⟨g, e1, e2, e3, e4, e5, t1, t2, t3, t4⟩ :=
      vfr_inv cfg now s hctrl hseq hmin hmax hn hfr
    by_cases hbe : b = EOF_BYTE
    · simp only [if_pos hbe]
      refine ⟨g, e1.trans_le hctrl, e2.trans_lt hseq, ?_, ?_, t1, t2, t3, t4⟩
      · intro hx; exact nomatch hx
      · intro hx; rcases hx with hC | hC <;> exact nomatch hC
    · simp only [if_neg hbe]
      refine ⟨trivial, hctrl, hseq, ?_, ?_, hmin, hmax, hn, hfr⟩
      · intro hx; exact nomatch hx
      · intro hx; rcases hx with hC | hC <;> exact nomatch hC


/-- Each `rx_byte` call on a byte in `u8` range, from a state satisfying
`rx_inv`, passes every panic guard and preserves `rx_inv`. -/
theorem rx_byte_inv (cfg : MinCfg) (now : Nat) (s : MinCtx) (b : Nat)
    (hb : b < 256) (h : rx_inv s) :
    rx_byte_guards cfg s b = true ∧ rx_inv (rx_byte cfg now s b) := by
  obtain ⟨hhs, hcore⟩ := h
  obtain ⟨hctrl, hseq, hpay, hpb, hmin, hmax, hn, hfr⟩ := hcore
  by_cases h2 : s.rx_header_bytes_seen = 2
  · constructor
    · unfold rx_byte_guards
      rw [if_pos h2]
    · unfold rx_byte
      by_cases hbh : b = HEADER_BYTE
      · rw [if_pos ⟨h2, hbh⟩]
        refine ⟨by show (0:Nat) ≤ 2; decide, hctrl, hseq, ?_, ?_, hmin, hmax, hn, hfr⟩
        · intro hx; exact nomatch hx
        · intro hx; rcases hx with hC | hC <;> exact nomatch hC
      · rw [if_neg (fun hc => hbh hc.2)]
        by_cases hbs : b = STUFF_BYTE
        · rw [if_pos ⟨h2, hbs⟩]
          exact ⟨by show (0:Nat) ≤ 2; decide, hctrl, hseq, hpay, hpb,
            hmin, hmax, hn, hfr⟩
        · rw [if_neg (fun hc => hbs hc.2)]
          simp only [if_pos h2, if_neg hbh]
          refine ⟨?_, ?_⟩
          · rw [rx_state_step_hs]
            show (0:Nat) ≤ 2
            decide
          · refine (rx_state_step_core cfg now _ b hb ?_).2
            refine ⟨hctrl, hseq, ?_, ?_, hmin, hmax, hn, hfr⟩
            · intro hx; exact nomatch hx
            · intro hx; rcases hx with hC | hC <;> exact nomatch hC
  · have hc1 : ¬(s.rx_header_bytes_seen = 2 ∧ b = HEADER_BYTE) := fun hc => h2 hc.1
    have hc2 : ¬(s.rx_header_bytes_seen = 2 ∧ b = STUFF_BYTE) := fun hc => h2 hc.1
    constructor
    · unfold rx_byte_guards
      rw [if_neg h2]
      have hg := (rx_state_step_core cfg now s b hb
        ⟨hctrl, hseq, hpay, hpb, hmin, hmax, hn, hfr⟩).1
      by_cases hbh : b = HEADER_BYTE
      · rw [if_pos hbh, decide_eq_true (by omega : s.rx_header_bytes_seen + 1 ≤ 255),
          hg]
        rfl
      · rw [if_neg hbh, hg]
        rfl
    · unfold rx_byte
      rw [if_neg hc1, if_neg hc2]
      simp only [if_neg h2]
      by_cases hbh : b = HEADER_BYTE
      · simp only [if_pos hbh]
        refine ⟨?_, ?_⟩
        · rw [rx_state_step_hs]
          show wrap8add s.rx_header_bytes_seen 1 ≤ 2
          unfold wrap8add
          omega
        · refine (rx_state_step_core cfg now _ b hb ?_).2
          exact ⟨hctrl, hseq, hpay, hpb, hmin, hmax, hn, hfr⟩
      · simp only [if_neg hbh]
        refine ⟨?_, ?_⟩
        · rw [rx_state_step_hs]
          show (0:Nat) ≤ 2
          decide
        · refine (rx_state_step_core cfg now _ b hb ?_).2
          exact ⟨hctrl, hseq, hpay, hpb, hmin, hmax, hn, hfr⟩


/-- From an `rx_inv` state, the guard-checked byte fold never reports a
panic and computes exactly the unchecked fold. -/
theorem rx_fold_checked_eq (cfg : MinCfg) (now : Nat) :
    ∀ (buf : List Nat) (s : MinCtx), rx_inv s → (∀ b ∈ buf, b < 256) →
      rx_fold_checked cfg now s buf = some (buf.foldl (rx_byte cfg now) s) := by
  intro buf
  induction buf with
  | nil => intro s _ _; rfl
  | cons b t ih =>
    intro s hs hb
    obtain ⟨hg, hinv⟩ := rx_byte_inv cfg now s b (hb b (by simp)) hs
    rw [List.foldl_cons]
    show (match rx_byte_checked cfg now s b with
      | some s' => rx_fold_checked cfg now s' t
      | none => none) = some (List.foldl (rx_byte cfg now) (rx_byte cfg now s b) t)
    rw [rx_byte_checked, if_pos hg]
    exact ih (rx_byte cfg now s b) hinv (fun x hx => hb x (by simp [hx]))

/-- A fresh context satisfies the receive-path invariant. -/
theorem rx_inv_new (now0 : Nat) : rx_inv (Context.new now0) := by
  refine ⟨by show (0:Nat) ≤ 2; decide, by show (0:Nat) ≤ 255; decide,
    by show (0:Nat) < 256; decide, ?_, ?_, rfl, rfl, rfl, rfl⟩
  · intro hx; exact nomatch hx
  · intro hx; rcases hx with hC | hC <;> exact nomatch hC

/-- C7: feeding any sequence of bytes (in `u8` range) to `poll` of a fresh
context, with transport enabled or not, trips none of the panic guards of
the receive path (payload-buffer indexing, the `u8` header/length/`n_frames`
arithmetic, and the `Msg::new` payload copy): the guard-checked embedding
`poll_checked` is total and agrees with `poll`. -/
theorem c7_receive_total (cfg : MinCfg) (now now0 : Nat) (buf : List Nat)
    (hbuf : ∀ b ∈ buf, b < 256) :
    poll_checked cfg now (Context.new now0) buf =
      some (poll cfg now (Context.new now0) buf) := by
  unfold poll_checked poll
  rw [rx_fold_checked_eq cfg now buf (Context.new now0) (rx_inv_new now0) hbuf]
  rfl

/-- Witness for C7: a transport-enabled context fed a stray ACK-id byte
stream plus a complete unstuffed frame header. -/
theorem c7_receive_total_witness :
    poll_checked ⟨true, 3, 100⟩ 7 (Context.new 0) [170, 170, 170, 255, 0, 1, 2] =
      some (poll ⟨true, 3, 100⟩ 7 (Context.new 0) [170, 170, 170, 255, 0, 1, 2]) :=
  c7_receive_total ⟨true, 3, 100⟩ 7 0 [170, 170, 170, 255, 0, 1, 2] (by decide)

end MinRs
